import Mathlib

/-!
Shallow embedding of the browser connection / page-pool manager of
`src/packages/browser/src/browser.ts` (class `BrowserManager`).

Modelling choices:
* Playwright `Page` objects are page ids (`Nat`) pointing into a page table
  `pages : List (Nat × PageState)`; closing a page flips its `closed` flag.
* Playwright `Browser` objects are browser ids (`Nat`); a `BrowserInstance`
  holds its browser id, its page pool (list of page ids), its endpoint key,
  and the `healthy` / `lastHealthCheck` / `markedForShutdown` fields of the
  source interface.
* `this.browserInstances : Map<string, BrowserInstance>` is an association
  list keyed by `endpoint`, with JavaScript `Map` semantics for `set` /
  `delete` (insertion order preserved, `set` of an existing key updates in
  place).
* Fallible I/O (chromium.connect, newPage, goto, evaluate, isConnected) is
  decided by an oracle `Env` consulted at the current value of a logical
  clock `clock`, which advances by one at each I/O action.  `page.close()`
  always succeeds (every call site in the source swallows close errors).
* Async functions that mutate `this` and may throw are modelled as
  `MState → MState × Except BError α`: the mutated state survives the
  throw, exactly as a thrown JS exception leaves `this` mutated.
* The unbounded `while (true)` reconnection loop of `attemptRecovery` is
  modelled with explicit fuel (number of loop iterations); fuel exhaustion
  means "the loop is still running after that many failed attempts".
* Ghost instrumentation fields (`recoveryCalls`, `connectLog`,
  `connectSuccesses`, `gotoLog`, `healthChecksRun`) record observable calls
  without influencing any behaviour.
* The timer of `startHealthChecks` is modelled as a single tick
  (`healthTick`) iterating over the snapshot of registered instances at
  tick start.
-/

/-- `PAGE_POOL_SIZE` of `BrowserManager`. -/
def PAGE_POOL_SIZE : Nat := 10

/-- `HEALTH_CHECK_INTERVAL` of `BrowserManager` (milliseconds). -/
def HEALTH_CHECK_INTERVAL : Nat := 5000

/-- `INITIAL_RECONNECT_DELAY` of `BrowserManager` (milliseconds). -/
def INITIAL_RECONNECT_DELAY : Nat := 1000

/-- `MAX_RECONNECT_MULTIPLIER` of `BrowserManager`. -/
def MAX_RECONNECT_MULTIPLIER : Nat := 3

/-- `DEFAULT_PAGE_TIMEOUT` of `BrowserManager` (milliseconds). -/
def DEFAULT_PAGE_TIMEOUT : Nat := 5000

/-- State of one Playwright page: whether it has been closed, which browser
created it (the back-reference `page.context()?.browser()`), whether
`setupCoreSecurityControls` hardened it, and its default timeout. -/
structure PageState where
  closed : Bool
  browserId : Nat
  secured : Bool
  defaultTimeout : Nat
deriving DecidableEq

/-- The `BrowserInstance` interface of the source. -/
structure BrowserInstance where
  browserId : Nat
  pagePool : List Nat
  endpoint : String
  healthy : Bool
  lastHealthCheck : Nat
  markedForShutdown : Bool
deriving DecidableEq

/-- Mutable state of the `BrowserManager` singleton plus the page heap,
allocation counters, the logical clock and ghost observation logs. -/
structure MState where
  browserInstances : List BrowserInstance
  pages : List (Nat × PageState)
  nextPageId : Nat
  nextBrowserId : Nat
  clock : Nat
  recoveryCalls : Nat
  connectLog : List String
  connectSuccesses : Nat
  gotoLog : List (Nat × Nat)
  healthChecksRun : List String
deriving DecidableEq

/-- Environment oracle: the configured `BROWSER_ENDPOINTS` variable and, for
each value of the logical clock, whether the I/O step performed at that
instant succeeds. -/
structure Env where
  browserEndpoints : Option String
  connectOk : Nat → Bool
  newPageOk : Nat → Bool
  gotoOk : Nat → Bool
  evalOk : Nat → Bool
  isConnected : Nat → Bool

/-- Errors thrown by the source (`throw new Error(...)` sites and failures
of the underlying driver calls). -/
inductive BError where
  | noEndpointsConfigured
  | allConnectionsFailed
  | connectFailed
  | newPageFailed
  | gotoFailed
  | evalFailed
  | instanceNotFound
deriving DecidableEq

/-- Endpoint keys of the registry, in insertion order. -/
def keys (m : List BrowserInstance) : List String :=
  m.map (fun i => i.endpoint)

/-- `Map.get` on the endpoint-keyed registry. -/
def mapGet (m : List BrowserInstance) (ept : String) : Option BrowserInstance :=
  match m with
  | [] => none
  | i :: rest => if i.endpoint == ept then some i else mapGet rest ept

/-- `Map.set` on the endpoint-keyed registry: update the entry in place when
the key exists, else append (JS `Map` insertion-order semantics). -/
def mapSet (m : List BrowserInstance) (x : BrowserInstance) : List BrowserInstance :=
  match m with
  | [] => [x]
  | i :: rest => if i.endpoint == x.endpoint then x :: rest else i :: mapSet rest x

/-- `Map.delete` on the endpoint-keyed registry. -/
def mapDelete (m : List BrowserInstance) (ept : String) : List BrowserInstance :=
  match m with
  | [] => []
  | i :: rest => if i.endpoint == ept then rest else i :: mapDelete rest ept

/-- Look a page up in the page table. -/
def pageGet (pgs : List (Nat × PageState)) (pid : Nat) : Option PageState :=
  match pgs with
  | [] => none
  | p :: rest => if p.fst == pid then some p.snd else pageGet rest pid

/-- Insert or update a page in the page table. -/
def pageSet (pgs : List (Nat × PageState)) (pid : Nat) (ps : PageState) :
    List (Nat × PageState) :=
  match pgs with
  | [] => [(pid, ps)]
  | p :: rest => if p.fst == pid then (pid, ps) :: rest else p :: pageSet rest pid ps

/-- Update a page in place (no-op when absent). -/
def updatePage (pgs : List (Nat × PageState)) (pid : Nat)
    (f : PageState → PageState) : List (Nat × PageState) :=
  match pgs with
  | [] => []
  | p :: rest =>
    if p.fst == pid then (p.fst, f p.snd) :: rest else p :: updatePage rest pid f

/-- `page.isClosed()`; a page missing from the table counts as closed. -/
def isClosedB (s : MState) (pid : Nat) : Bool :=
  match pageGet s.pages pid with
  | some ps => ps.closed
  | none => true

/-- `page.close()`: always succeeds (all call sites swallow close errors). -/
def pageClose (s : MState) (pid : Nat) : MState :=
  { s with pages := updatePage s.pages pid (fun ps => { ps with closed := true }) }

/-- Close a list of pages (`pagePool.forEach(page => page.close()...)`). -/
def closePages (s : MState) (pids : List Nat) : MState :=
  pids.foldl pageClose s

/-- Advance the logical clock by one I/O step. -/
def tick (s : MState) : MState :=
  { s with clock := s.clock + 1 }

/-- JavaScript `str.split(',')` on the character list of the string:
`""` yields `[""]`, and the result is never empty. -/
def splitComma (l : List Char) : List (List Char) :=
  match l with
  | [] => [[]]
  | c :: rest =>
    match splitComma rest with
    | [] => [[]]
    | r :: rs => if c = ',' then [] :: r :: rs else (c :: r) :: rs

/-- `getEndpoints`: `process.env.BROWSER_ENDPOINTS?.split(',') || []`
followed by the identity `map`. -/
def getEndpoints (cfg : Option String) : List String :=
  match cfg with
  | none => []
  | some str => ((splitComma str.data).map (fun cs => String.mk cs)).map (fun e => e)

/-- `chromium.connect(endpoint, ...)`: allocates a fresh browser id when the
oracle lets the connection succeed. -/
def chromiumConnect (env : Env) (s : MState) : MState × Except BError Nat :=
  if env.connectOk s.clock then
    ({ tick s with nextBrowserId := s.nextBrowserId + 1 }, Except.ok s.nextBrowserId)
  else (tick s, Except.error BError.connectFailed)

/-- `createBasePage`: `browser.newPage({...})`, allocating a fresh open page
on success. -/
def createBasePage (env : Env) (bId : Nat) (s : MState) : MState × Except BError Nat :=
  if env.newPageOk s.clock then
    let pid := s.nextPageId
    let ps : PageState :=
      { closed := false, browserId := bId, secured := false, defaultTimeout := 0 }
    ({ tick s with pages := pageSet s.pages pid ps, nextPageId := pid + 1 },
      Except.ok pid)
  else (tick s, Except.error BError.newPageFailed)

/-- `setupCoreSecurityControls`: installs the dialog/popup handlers and
`page.setDefaultTimeout(DEFAULT_PAGE_TIMEOUT)` (the instance argument is
always provided at every call site, so the `!instance` throw is dead). -/
def setupCoreSecurityControls (s : MState) (pid : Nat) : MState :=
  let harden := fun (ps : PageState) =>
    { ps with secured := true, defaultTimeout := DEFAULT_PAGE_TIMEOUT }
  { s with pages := updatePage s.pages pid harden }

/-- `createAndSecurePage`: `createBasePage` then `setupCoreSecurityControls`. -/
def createAndSecurePage (env : Env) (bId : Nat) (s : MState) : MState × Except BError Nat :=
  match createBasePage env bId s with
  | (s1, Except.ok pid) => (setupCoreSecurityControls s1 pid, Except.ok pid)
  | (s1, Except.error e) => (s1, Except.error e)

/-- `page.goto('about:blank', { timeout })`: fails when the oracle says so or
when the page is already closed; the (pid, timeout) pair is ghost-logged. -/
def pageGoto (env : Env) (pid : Nat) (timeoutMs : Nat) (s : MState) :
    MState × Except BError Unit :=
  let s0 := { s with gotoLog := s.gotoLog ++ [(pid, timeoutMs)] }
  if env.gotoOk s.clock && !(isClosedB s pid) then (tick s0, Except.ok ())
  else (tick s0, Except.error BError.gotoFailed)

/-- `page.evaluate(() => true)`: fails when the oracle says so or when the
page is closed. -/
def pageEvaluate (env : Env) (pid : Nat) (s : MState) : MState × Except BError Unit :=
  if env.evalOk s.clock && !(isClosedB s pid) then (tick s, Except.ok ())
  else (tick s, Except.error BError.evalFailed)

/-- `validatePage`: false when `page.isClosed()`, then a no-op `evaluate`
probe under a catch-all; never throws. -/
def validatePage (env : Env) (pid : Nat) (s : MState) : MState × Bool :=
  if isClosedB s pid then (s, false)
  else
    match pageEvaluate env pid s with
    | (s1, Except.ok _) => (s1, true)
    | (s1, Except.error _) => (s1, false)

/-- `findInstanceByPage`: scan the registry for the instance whose browser
backs the page (`page.context()?.browser() === instance.browser`). -/
def findInstanceByPage (s : MState) (pid : Nat) : Option BrowserInstance :=
  match pageGet s.pages pid with
  | none => none
  | some ps => s.browserInstances.find? (fun i => i.browserId == ps.browserId)

/-- `resetPage`: navigate to a blank page with a 500 ms timeout; on failure
close the page and create a secured replacement from the same instance,
rethrowing only that creation's failure.  Throws `instanceNotFound` when the
page belongs to no known instance (line 153 of the source). -/
def resetPage (env : Env) (pid : Nat) (s : MState) : MState × Except BError Nat :=
  match findInstanceByPage s pid with
  | none => (s, Except.error BError.instanceNotFound)
  | some inst =>
    match pageGoto env pid 500 s with
    | (s1, Except.ok _) => (s1, Except.ok pid)
    | (s1, Except.error _) =>
      let s2 := pageClose s1 pid
      match createAndSecurePage env inst.browserId s2 with
      | (s3, Except.ok newPid) => (s3, Except.ok newPid)
      | (s3, Except.error e) => (s3, Except.error e)

/-- Teardown performed by the `catch` of `connectToBrowser`: if the registry
holds an instance for the endpoint, close its browser (best-effort) and
delete the registry entry. -/
def connectCleanup (s : MState) (ept : String) : MState :=
  match mapGet s.browserInstances ept with
  | some _ => { s with browserInstances := mapDelete s.browserInstances ept }
  | none => s

/-- The pool warm-up loop of `connectToBrowser`: `PAGE_POOL_SIZE` iterations
of `createAndSecurePage`, aborting on the first failure. -/
def warmupLoop (env : Env) (bId : Nat) (n : Nat) (s : MState) (acc : List Nat) :
    MState × Except BError (List Nat) :=
  match n with
  | 0 => (s, Except.ok acc)
  | Nat.succ n' =>
    match createAndSecurePage env bId s with
    | (s1, Except.ok pid) => warmupLoop env bId n' s1 (acc ++ [pid])
    | (s1, Except.error e) => (s1, Except.error e)

/-- The `BrowserInstance` object literal constructed by `connectToBrowser`:
fresh browser handle, empty pool, healthy, stamped `lastHealthCheck`. -/
def freshInstance (bId : Nat) (ept : String) (t : Nat) : BrowserInstance :=
  { browserId := bId, pagePool := [], endpoint := ept, healthy := true,
    lastHealthCheck := t, markedForShutdown := false }

/-- `connectToBrowser`: connect, register the instance with an empty pool,
warm the pool to `PAGE_POOL_SIZE` pages, store the pool; on any failure run
the catch teardown and rethrow.  The attempted endpoint is ghost-logged and
`connectSuccesses` counts completed connections. -/
def connectToBrowser (env : Env) (ept : String) (s : MState) : MState × Except BError Nat :=
  let s0 := { s with connectLog := s.connectLog ++ [ept] }
  match chromiumConnect env s0 with
  | (s1, Except.error e) => (connectCleanup s1 ept, Except.error e)
  | (s1, Except.ok bId) =>
    let inst := freshInstance bId ept s1.clock
    let s2 := { s1 with browserInstances := mapSet s1.browserInstances inst }
    match warmupLoop env bId PAGE_POOL_SIZE s2 [] with
    | (s3, Except.ok pool) =>
      ({ s3 with
          browserInstances := mapSet s3.browserInstances { inst with pagePool := pool },
          connectSuccesses := s3.connectSuccesses + 1 },
        Except.ok bId)
    | (s3, Except.error e) => (connectCleanup s3 ept, Except.error e)

/-- The `for (const endpoint of endpoints)` loop of `initializeConnections`:
each `connectToBrowser` failure is logged and skipped. -/
def connectAll (env : Env) (endpoints : List String) (s : MState) : MState :=
  match endpoints with
  | [] => s
  | e :: rest => connectAll env rest (connectToBrowser env e s).1

/-- `initializeConnections`: read the configured endpoints, throw
`noEndpointsConfigured` when the list is empty, attempt every endpoint
(failures skipped), throw `allConnectionsFailed` when the registry ends
empty. -/
def initializeConnections (env : Env) (s : MState) : MState × Except BError Unit :=
  let endpoints := getEndpoints env.browserEndpoints
  if endpoints.length == 0 then (s, Except.error BError.noEndpointsConfigured)
  else
    let s1 := connectAll env endpoints s
    if s1.browserInstances.length == 0 then (s1, Except.error BError.allConnectionsFailed)
    else (s1, Except.ok ())

/-- The `while (true)` body of targeted `attemptRecovery`: each iteration
deletes the endpoint from the registry, best-effort closes the captured
pool's pages and the old browser, then retries `connectToBrowser`; on
failure it computes the backoff delay (recorded in the returned list) and
loops.  `fuel` bounds the number of iterations observed; the `Bool` result
tells whether the loop completed (reconnected) within the fuel. -/
def recoveryLoop (env : Env) (ept : String) (pool : List Nat)
    (fuel attempt : Nat) (s : MState) (delays : List Nat) :
    MState × List Nat × Bool :=
  match fuel with
  | 0 => (s, delays, false)
  | Nat.succ fuel' =>
    let s1 := { s with browserInstances := mapDelete s.browserInstances ept }
    let s2 := closePages s1 pool
    match connectToBrowser env ept s2 with
    | (s3, Except.ok _) => (s3, delays, true)
    | (s3, Except.error _) =>
      let exponentialDelay := INITIAL_RECONNECT_DELAY * 2 ^ (attempt - 1)
      let currentDelay :=
        min exponentialDelay (INITIAL_RECONNECT_DELAY * MAX_RECONNECT_MULTIPLIER)
      recoveryLoop env ept pool fuel' (attempt + 1) s3 (delays ++ [currentDelay])

/-- `attemptRecovery(instance)` (targeted shape): never throws; entry is
counted in the ghost `recoveryCalls`. -/
def attemptRecoveryTargeted (env : Env) (inst : BrowserInstance) (fuel : Nat)
    (s : MState) : MState × List Nat × Bool :=
  recoveryLoop env inst.endpoint inst.pagePool fuel 1
    { s with recoveryCalls := s.recoveryCalls + 1 } []

/-- `attemptRecovery()` (global shape): re-runs `initializeConnections`,
propagating its exception; entry is counted in the ghost `recoveryCalls`. -/
def attemptRecoveryGlobal (env : Env) (s : MState) : MState × Except BError Unit :=
  initializeConnections env { s with recoveryCalls := s.recoveryCalls + 1 }

/-- The `try { return await this.createAndSecurePage(...) } catch` block of
`getAvailablePage`: on failure the instance is marked unhealthy and the
loop continues (`none`). -/
def tryCreatePage (env : Env) (inst : BrowserInstance) (s : MState) :
    MState × Option Nat :=
  match createAndSecurePage env inst.browserId s with
  | (s1, Except.ok pid) => (s1, some pid)
  | (s1, Except.error _) =>
    ({ s1 with browserInstances := mapSet s1.browserInstances { inst with healthy := false } },
      none)

/-- The `for (const instance of healthyInstances)` loop of
`getAvailablePage`: shift a page from the pool; if present and valid return
it, if present and invalid close it; then fall through to creating a fresh
secured page from the same instance, marking it unhealthy and continuing on
failure. -/
def getPageLoop (env : Env) (insts : List BrowserInstance) (s : MState) :
    MState × Option Nat :=
  match insts with
  | [] => (s, none)
  | inst :: rest =>
    match inst.pagePool with
    | pid :: poolRest =>
      let inst1 := { inst with pagePool := poolRest }
      let s1 := { s with browserInstances := mapSet s.browserInstances inst1 }
      match validatePage env pid s1 with
      | (s2, true) => (s2, some pid)
      | (s2, false) =>
        let s3 := pageClose s2 pid
        match tryCreatePage env inst1 s3 with
        | (s4, some p) => (s4, some p)
        | (s4, none) => getPageLoop env rest s4
    | [] =>
      match tryCreatePage env inst s with
      | (s1, some p) => (s1, some p)
      | (s1, none) => getPageLoop env rest s1

/-- Stable insertion of an instance into a list sorted by descending pool
length (the stable JS `sort((a, b) => b.pagePool.length - a.pagePool.length)`). -/
def insertByLen (x : BrowserInstance) (l : List BrowserInstance) :
    List BrowserInstance :=
  match l with
  | [] => [x]
  | y :: ys =>
    if y.pagePool.length ≤ x.pagePool.length then x :: y :: ys
    else y :: insertByLen x ys

/-- Sort instances by descending pool length, stably. -/
def sortByPoolDesc (l : List BrowserInstance) : List BrowserInstance :=
  l.foldr insertByLen []

/-- `getAvailablePage`: filter healthy instances, sort them by descending
pool size; with zero healthy instances call `attemptRecovery()` (whose
exception propagates) and return null; otherwise run the checkout loop and
return its result (null when every candidate failed — no recovery call on
that path). -/
def getAvailablePage (env : Env) (s : MState) : MState × Except BError (Option Nat) :=
  let healthyInstances :=
    sortByPoolDesc (s.browserInstances.filter (fun i => i.healthy))
  if healthyInstances.length == 0 then
    match attemptRecoveryGlobal env s with
    | (s1, Except.ok _) => (s1, Except.ok none)
    | (s1, Except.error e) => (s1, Except.error e)
  else
    match getPageLoop env healthyInstances s with
    | (s1, some pid) => (s1, Except.ok (some pid))
    | (s1, none) => (s1, Except.ok none)

/-- `returnPage`: orphaned pages are closed; with room in the owning pool
the page is reset and pushed, otherwise closed; any exception on the path
closes the page.  Never throws. -/
def returnPage (env : Env) (pid : Nat) (s : MState) : MState :=
  match findInstanceByPage s pid with
  | none => pageClose s pid
  | some inst =>
    if inst.pagePool.length < PAGE_POOL_SIZE then
      match resetPage env pid s with
      | (s1, Except.ok resetPid) =>
        let m1 := mapSet s1.browserInstances
          { inst with pagePool := inst.pagePool ++ [resetPid] }
        { s1 with browserInstances := m1 }
      | (s1, Except.error _) => pageClose s1 pid
    else pageClose s pid

/-- The `catch` path of `checkBrowserHealth`: mark the instance unhealthy
and await targeted `attemptRecovery`; the `Bool` is false when the recovery
loop is still running after the fuel's worth of attempts. -/
def checkFail (env : Env) (inst : BrowserInstance) (fuel : Nat) (s : MState) :
    MState × Bool :=
  let m1 := mapSet s.browserInstances { inst with healthy := false }
  let s1 := { s with browserInstances := m1 }
  let r := attemptRecoveryTargeted env { inst with healthy := false } fuel s1
  (r.1, r.2.2)

/-- `checkBrowserHealth`: throw on a disconnected browser, else probe by
creating a secured page, navigating it to a blank page (default timeout) and
closing it; on success mark healthy and stamp `lastHealthCheck`; on any
failure run the catch path.  The probed endpoint is ghost-logged. -/
def checkBrowserHealth (env : Env) (inst : BrowserInstance) (fuel : Nat)
    (s : MState) : MState × Bool :=
  let s0 := { s with healthChecksRun := s.healthChecksRun ++ [inst.endpoint] }
  let connected := env.isConnected s0.clock
  let s1 := tick s0
  if connected then
    match createAndSecurePage env inst.browserId s1 with
    | (s2, Except.ok pid) =>
      match pageGoto env pid DEFAULT_PAGE_TIMEOUT s2 with
      | (s3, Except.ok _) =>
        let s4 := pageClose s3 pid
        let m4 := mapSet s4.browserInstances
          { inst with healthy := true, lastHealthCheck := s4.clock }
        ({ s4 with browserInstances := m4 }, true)
      | (s3, Except.error _) => checkFail env inst fuel s3
    | (s2, Except.error _) => checkFail env inst fuel s2
  else checkFail env inst fuel s1

/-- Iteration of one health-check tick over the snapshot of instances: each
check is awaited in turn, so a check whose recovery has not completed stops
the iteration (the remaining instances are not probed). -/
def healthTickGo (env : Env) (fuel : Nat) (insts : List BrowserInstance)
    (s : MState) : MState × Bool :=
  match insts with
  | [] => (s, true)
  | inst :: rest =>
    match checkBrowserHealth env inst fuel s with
    | (s1, true) => healthTickGo env fuel rest s1
    | (s1, false) => (s1, false)

/-- One firing of the `setInterval` callback of `startHealthChecks`. -/
def healthTick (env : Env) (fuel : Nat) (s : MState) : MState × Bool :=
  healthTickGo env fuel s.browserInstances s

/-- The `cleanup` closure of `setupProcessHandlers`: best-effort close every
pooled page and every browser, then clear the registry. -/
def cleanup (s : MState) : MState :=
  let s1 := s.browserInstances.foldl (fun acc inst => closePages acc inst.pagePool) s
  { s1 with browserInstances := [] }

/-- `getMetrics`: read-only snapshot over the registry. -/
def getMetrics (s : MState) : Nat × Nat × Nat × Nat :=
  let healthy := s.browserInstances.filter (fun i => i.healthy)
  (s.browserInstances.length, healthy.length,
    healthy.length * PAGE_POOL_SIZE,
    (healthy.map (fun i => i.pagePool.length)).sum)

/-- The spec's pool-size invariant: every registered instance's pool holds
at most `PAGE_POOL_SIZE` pages. -/
def PoolInv (s : MState) : Prop :=
  ∀ inst ∈ s.browserInstances, inst.pagePool.length ≤ PAGE_POOL_SIZE

instance exceptDecEq {e a : Type} [DecidableEq e] [DecidableEq a] :
    DecidableEq (Except e a) := fun x y =>
  match x, y with
  | Except.error u, Except.error v =>
    if h : u = v then isTrue (by rw [h]) else
      isFalse (fun hh => by cases hh; exact h rfl)
  | Except.error _, Except.ok _ => isFalse (fun hh => by cases hh)
  | Except.ok _, Except.error _ => isFalse (fun hh => by cases hh)
  | Except.ok u, Except.ok v =>
    if h : u = v then isTrue (by rw [h]) else
      isFalse (fun hh => by cases hh; exact h rfl)

theorem mem_mapSet {m : List BrowserInstance} {x y : BrowserInstance}
    (h : y ∈ mapSet m x) : y = x ∨ y ∈ m := by
  induction m with
  | nil => simpa [mapSet] using h
  | cons a as ih =>
    unfold mapSet at h
    split at h
    · rcases List.mem_cons.mp h with h1 | h1
      · exact Or.inl h1
      · exact Or.inr (List.mem_cons_of_mem a h1)
    · rcases List.mem_cons.mp h with h1 | h1
      · exact Or.inr (h1 ▸ List.mem_cons_self a as)
      · rcases ih h1 with h2 | h2
        · exact Or.inl h2
        · exact Or.inr (List.mem_cons_of_mem a h2)

theorem mem_mapDelete {m : List BrowserInstance} {e : String}
    {y : BrowserInstance} (h : y ∈ mapDelete m e) : y ∈ m := by
  induction m with
  | nil => simpa [mapDelete] using h
  | cons a as ih =>
    unfold mapDelete at h
    split at h
    · exact List.mem_cons_of_mem a h
    · rcases List.mem_cons.mp h with h1 | h1
      · exact h1 ▸ List.mem_cons_self a as
      · exact List.mem_cons_of_mem a (ih h1)

/-- Bound on every pool of a registry list. -/
def PoolBound (m : List BrowserInstance) : Prop :=
  ∀ i ∈ m, i.pagePool.length ≤ PAGE_POOL_SIZE

theorem poolInv_iff (s : MState) : PoolInv s ↔ PoolBound s.browserInstances :=
  Iff.rfl

theorem poolBound_mapSet {m : List BrowserInstance} {x : BrowserInstance}
    (hm : PoolBound m) (hx : x.pagePool.length ≤ PAGE_POOL_SIZE) :
    PoolBound (mapSet m x) := by
  intro y hy
  rcases mem_mapSet hy with h | h
  · exact h ▸ hx
  · exact hm y h

theorem poolBound_mapDelete {m : List BrowserInstance} {e : String}
    (hm : PoolBound m) : PoolBound (mapDelete m e) :=
  fun y hy => hm y (mem_mapDelete hy)

theorem mapGet_mapSet_self (m : List BrowserInstance) (x : BrowserInstance) :
    mapGet (mapSet m x) x.endpoint = some x := by
  induction m with
  | nil => simp [mapSet, mapGet]
  | cons a as ih =>
    by_cases ha : (a.endpoint == x.endpoint) = true
    · simp [mapSet, mapGet, ha]
    · simp [mapSet, mapGet, ha, ih]

theorem pageGet_pageSet_self (pgs : List (Nat × PageState)) (pid : Nat)
    (ps : PageState) : pageGet (pageSet pgs pid ps) pid = some ps := by
  induction pgs with
  | nil => simp [pageSet, pageGet]
  | cons a as ih =>
    by_cases ha : (a.fst == pid) = true
    · simp [pageSet, pageGet, ha]
    · simp [pageSet, pageGet, ha, ih]

theorem pageGet_pageSet_ne (pgs : List (Nat × PageState)) {k pid : Nat}
    (ps : PageState) (h : k ≠ pid) :
    pageGet (pageSet pgs k ps) pid = pageGet pgs pid := by
  induction pgs with
  | nil => simp [pageSet, pageGet, h]
  | cons a as ih =>
    by_cases ha : (a.fst == k) = true
    · have hak : a.fst = k := by simpa using ha
      simp [pageSet, pageGet, ha, hak, h]
    · by_cases hap : (a.fst == pid) = true
      · simp [pageSet, pageGet, ha, hap]
      · simp [pageSet, pageGet, ha, hap, ih]

theorem pageGet_updatePage_self (pgs : List (Nat × PageState)) (pid : Nat)
    (f : PageState → PageState) :
    pageGet (updatePage pgs pid f) pid = (pageGet pgs pid).map f := by
  induction pgs with
  | nil => simp [updatePage, pageGet]
  | cons a as ih =>
    by_cases ha : (a.fst == pid) = true
    · simp [updatePage, pageGet, ha]
    · simp [updatePage, pageGet, ha, ih]

theorem pageGet_updatePage_ne (pgs : List (Nat × PageState)) {k pid : Nat}
    (f : PageState → PageState) (h : k ≠ pid) :
    pageGet (updatePage pgs k f) pid = pageGet pgs pid := by
  induction pgs with
  | nil => simp [updatePage, pageGet]
  | cons a as ih =>
    by_cases ha : (a.fst == k) = true
    · have hak : a.fst = k := by simpa using ha
      simp [updatePage, pageGet, ha, hak, h]
    · by_cases hap : (a.fst == pid) = true
      · simp [updatePage, pageGet, ha, hap]
      · simp [updatePage, pageGet, ha, hap, ih]

theorem isClosedB_pageClose_self (s : MState) (pid : Nat) :
    isClosedB (pageClose s pid) pid = true := by
  unfold isClosedB pageClose
  simp only [pageGet_updatePage_self]
  cases pageGet s.pages pid <;> rfl

theorem pageGet_mem {pgs : List (Nat × PageState)} {pid : Nat} {ps : PageState}
    (h : pageGet pgs pid = some ps) : (pid, ps) ∈ pgs := by
  induction pgs with
  | nil => simp [pageGet] at h
  | cons a as ih =>
    unfold pageGet at h
    by_cases ha : (a.fst == pid) = true
    · simp only [ha, if_true, Option.some.injEq] at h
      have hak : a.fst = pid := by simpa using ha
      cases a
      simp only at hak h
      subst hak
      subst h
      exact List.mem_cons_self _ _
    · simp only [ha, if_false] at h
      exact List.mem_cons_of_mem a (ih h)

theorem closePages_frame (pids : List Nat) (s : MState) :
    ∃ pgs, closePages s pids = { s with pages := pgs } := by
  induction pids generalizing s with
  | nil => exact ⟨s.pages, rfl⟩
  | cons p ps ih =>
    rcases ih (pageClose s p) with ⟨pgs, h⟩
    exact ⟨pgs, by simpa [closePages, pageClose] using h⟩

theorem chromiumConnect_frame (env : Env) (s : MState) :
    ∃ c b, (chromiumConnect env s).1 = { s with clock := c, nextBrowserId := b } := by
  unfold chromiumConnect
  split
  · exact ⟨s.clock + 1, s.nextBrowserId + 1, rfl⟩
  · exact ⟨s.clock + 1, s.nextBrowserId, rfl⟩

theorem createBasePage_frame (env : Env) (b : Nat) (s : MState) :
    ∃ c pgs np, (createBasePage env b s).1
      = { s with clock := c, pages := pgs, nextPageId := np } := by
  unfold createBasePage
  split
  · exact ⟨s.clock + 1, _, s.nextPageId + 1, rfl⟩
  · exact ⟨s.clock + 1, s.pages, s.nextPageId, rfl⟩

theorem setupCore_frame (s : MState) (pid : Nat) :
    ∃ pgs, setupCoreSecurityControls s pid = { s with pages := pgs } :=
  ⟨_, rfl⟩

theorem pageGoto_frame (env : Env) (pid t : Nat) (s : MState) :
    (pageGoto env pid t s).1
      = { s with clock := s.clock + 1, gotoLog := s.gotoLog ++ [(pid, t)] } := by
  unfold pageGoto
  split <;> rfl

theorem pageEvaluate_frame (env : Env) (pid : Nat) (s : MState) :
    (pageEvaluate env pid s).1 = { s with clock := s.clock + 1 } := by
  unfold pageEvaluate
  split <;> rfl

theorem validatePage_frame (env : Env) (pid : Nat) (s : MState) :
    ∃ c, (validatePage env pid s).1 = { s with clock := c } := by
  unfold validatePage
  split
  · exact ⟨s.clock, rfl⟩
  · rcases h : pageEvaluate env pid s with ⟨s1, r⟩
    have h1 : s1 = { s with clock := s.clock + 1 } := by
      have := pageEvaluate_frame env pid s
      rw [h] at this
      exact this
    cases r <;> exact ⟨s.clock + 1, by simp [h1]⟩

theorem connectCleanup_frame (s : MState) (e : String) :
    ∃ m, connectCleanup s e = { s with browserInstances := m } := by
  unfold connectCleanup
  cases mapGet s.browserInstances e
  · exact ⟨s.browserInstances, rfl⟩
  · exact ⟨_, rfl⟩

theorem createAndSecurePage_frame (env : Env) (b : Nat) (s : MState) :
    ∃ c pgs np, (createAndSecurePage env b s).1
      = { s with clock := c, pages := pgs, nextPageId := np } := by
  unfold createAndSecurePage
  rcases h : createBasePage env b s with ⟨s1, r⟩
  obtain ⟨c, pgs, np, h1⟩ := by
    have := createBasePage_frame env b s
    rw [h] at this
    exact this
  subst h1
  cases r with
  | ok pid => exact ⟨c, _, np, rfl⟩
  | error e => exact ⟨c, pgs, np, rfl⟩

theorem resetPage_frame (env : Env) (pid : Nat) (s : MState) :
    ∃ c pgs np gl, (resetPage env pid s).1
      = { s with clock := c, pages := pgs, nextPageId := np, gotoLog := gl } := by
  unfold resetPage
  cases findInstanceByPage s pid with
  | none => exact ⟨s.clock, s.pages, s.nextPageId, s.gotoLog, rfl⟩
  | some inst =>
    rcases h : pageGoto env pid 500 s with ⟨s1, r⟩
    have h1 := pageGoto_frame env pid 500 s
    rw [h] at h1
    subst h1
    cases r with
    | ok u => exact ⟨s.clock + 1, s.pages, s.nextPageId, _, rfl⟩
    | error e =>
      dsimp only
      rcases h2 : createAndSecurePage env inst.browserId (pageClose { s with clock := s.clock + 1, gotoLog := s.gotoLog ++ [(pid, 500)] } pid) with ⟨s3, r3⟩
      obtain ⟨c, pgs, np, h3⟩ := by
        have := createAndSecurePage_frame env inst.browserId (pageClose { s with clock := s.clock + 1, gotoLog := s.gotoLog ++ [(pid, 500)] } pid)
        rw [h2] at this
        exact this
      subst h3
      cases r3 with
      | ok newPid => exact ⟨c, pgs, np, s.gotoLog ++ [(pid, 500)], rfl⟩
      | error e3 => exact ⟨c, pgs, np, s.gotoLog ++ [(pid, 500)], rfl⟩

theorem warmupLoop_frame (env : Env) (b n : Nat) (s : MState) (acc : List Nat) :
    ∃ c pgs np, (warmupLoop env b n s acc).1
      = { s with clock := c, pages := pgs, nextPageId := np } := by
  induction n generalizing s acc with
  | zero => exact ⟨s.clock, s.pages, s.nextPageId, rfl⟩
  | succ n ih =>
    unfold warmupLoop
    rcases h : createAndSecurePage env b s with ⟨s1, r⟩
    obtain ⟨c, pgs, np, h1⟩ := by
      have := createAndSecurePage_frame env b s
      rw [h] at this
      exact this
    subst h1
    cases r with
    | ok pid =>
      rcases ih { s with clock := c, pages := pgs, nextPageId := np } (acc ++ [pid])
        with ⟨c2, pgs2, np2, h2⟩
      exact ⟨c2, pgs2, np2, by rw [h2]⟩
    | error e => exact ⟨c, pgs, np, rfl⟩

theorem connectToBrowser_frame (env : Env) (e : String) (s : MState) :
    ∃ m c pgs np nb cs, (connectToBrowser env e s).1
      = { s with browserInstances := m, clock := c, pages := pgs, nextPageId := np, nextBrowserId := nb, connectSuccesses := cs, connectLog := s.connectLog ++ [e] } := by
  unfold connectToBrowser
  dsimp only
  rcases h : chromiumConnect env { s with connectLog := s.connectLog ++ [e] } with ⟨s1, r⟩
  obtain ⟨c, b, h1⟩ := by
    have := chromiumConnect_frame env { s with connectLog := s.connectLog ++ [e] }
    rw [h] at this
    exact this
  dsimp only at h1
  cases r with
  | error err =>
    dsimp only
    rcases connectCleanup_frame s1 e with ⟨m, h2⟩
    refine ⟨m, c, s.pages, s.nextPageId, b, s.connectSuccesses, ?_⟩
    rw [h2, h1]
  | ok bId =>
    dsimp only
    rcases h2 : warmupLoop env bId PAGE_POOL_SIZE { s1 with browserInstances := mapSet s1.browserInstances (freshInstance bId e s1.clock) } [] with ⟨s3, r3⟩
    obtain ⟨c2, pgs, np, h3⟩ := by
      have := warmupLoop_frame env bId PAGE_POOL_SIZE { s1 with browserInstances := mapSet s1.browserInstances (freshInstance bId e s1.clock) } []
      rw [h2] at this
      exact this
    dsimp only at h3
    subst h1
    subst h3
    cases r3 with
    | ok pool =>
      dsimp only
      exact ⟨_, _, _, _, _, _, rfl⟩
    | error err =>
      dsimp only
      rcases connectCleanup_frame _ e with ⟨m, h4⟩
      exact ⟨_, _, _, _, _, _, by rw [h4]⟩

theorem connectAll_frame (env : Env) (es : List String) (s : MState) :
    ∃ m c pgs np nb cs, connectAll env es s
      = { s with browserInstances := m, clock := c, pages := pgs, nextPageId := np, nextBrowserId := nb, connectSuccesses := cs, connectLog := s.connectLog ++ es } := by
  induction es generalizing s with
  | nil =>
    exact ⟨s.browserInstances, s.clock, s.pages, s.nextPageId, s.nextBrowserId,
      s.connectSuccesses, by simp [connectAll]⟩
  | cons e rest ih =>
    unfold connectAll
    rcases h1 : connectToBrowser env e s with ⟨s1, r⟩
    obtain ⟨m, c, pgs, np, nb, cs, h1f⟩ := by
      have := connectToBrowser_frame env e s
      rw [h1] at this
      exact this
    dsimp only at h1f
    subst h1f
    rcases ih { s with browserInstances := m, clock := c, pages := pgs, nextPageId := np, nextBrowserId := nb, connectSuccesses := cs, connectLog := s.connectLog ++ [e] } with ⟨m2, c2, pgs2, np2, nb2, cs2, h2⟩
    refine ⟨m2, c2, pgs2, np2, nb2, cs2, ?_⟩
    rw [h2]
    simp

theorem initializeConnections_frame (env : Env) (s : MState) :
    ∃ m c pgs np nb cs cl, (initializeConnections env s).1
      = { s with browserInstances := m, clock := c, pages := pgs, nextPageId := np, nextBrowserId := nb, connectSuccesses := cs, connectLog := cl } := by
  unfold initializeConnections
  dsimp only
  split
  · exact ⟨s.browserInstances, s.clock, s.pages, s.nextPageId, s.nextBrowserId,
      s.connectSuccesses, s.connectLog, rfl⟩
  · rcases connectAll_frame env (getEndpoints env.browserEndpoints) s
      with ⟨m, c, pgs, np, nb, cs, h1⟩
    split
    · exact ⟨m, c, pgs, np, nb, cs, _, by rw [h1]⟩
    · exact ⟨m, c, pgs, np, nb, cs, _, by rw [h1]⟩

theorem attemptRecoveryGlobal_frame (env : Env) (s : MState) :
    ∃ m c pgs np nb cs cl, (attemptRecoveryGlobal env s).1
      = { s with browserInstances := m, clock := c, pages := pgs, nextPageId := np, nextBrowserId := nb, connectSuccesses := cs, connectLog := cl, recoveryCalls := s.recoveryCalls + 1 } := by
  unfold attemptRecoveryGlobal
  rcases initializeConnections_frame env { s with recoveryCalls := s.recoveryCalls + 1 }
    with ⟨m, c, pgs, np, nb, cs, cl, h1⟩
  exact ⟨m, c, pgs, np, nb, cs, cl, by rw [h1]⟩

theorem recoveryLoop_frame (env : Env) (ept : String) (pool : List Nat)
    (fuel attempt : Nat) (s : MState) (delays : List Nat) :
    ∃ m c pgs np nb cs cl, (recoveryLoop env ept pool fuel attempt s delays).1
      = { s with browserInstances := m, clock := c, pages := pgs, nextPageId := np, nextBrowserId := nb, connectSuccesses := cs, connectLog := cl } := by
  induction fuel generalizing attempt s delays with
  | zero =>
    exact ⟨s.browserInstances, s.clock, s.pages, s.nextPageId, s.nextBrowserId,
      s.connectSuccesses, s.connectLog, rfl⟩
  | succ fuel ih =>
    unfold recoveryLoop
    dsimp only
    rcases h0 : closePages { s with browserInstances := mapDelete s.browserInstances ept } pool with s2
    obtain ⟨pgs0, h0f⟩ := by
      have := closePages_frame pool { s with browserInstances := mapDelete s.browserInstances ept }
      rw [h0] at this
      exact this
    rcases h : connectToBrowser env ept s2 with ⟨s3, r⟩
    obtain ⟨m, c, pgs, np, nb, cs, h3⟩ := by
      have := connectToBrowser_frame env ept s2
      rw [h] at this
      exact this
    dsimp only at h3
    rw [h0f] at h3
    subst h3
    subst h0f
    cases r with
    | ok bId => exact ⟨_, _, _, _, _, _, _, rfl⟩
    | error err =>
      dsimp only
      rcases ih (attempt + 1) _ (delays ++ [min (INITIAL_RECONNECT_DELAY * 2 ^ (attempt - 1)) (INITIAL_RECONNECT_DELAY * MAX_RECONNECT_MULTIPLIER)]) with ⟨m2, c2, pgs2, np2, nb2, cs2, cl2, h4⟩
      exact ⟨m2, c2, pgs2, np2, nb2, cs2, cl2, by rw [h4]⟩

theorem attemptRecoveryTargeted_frame (env : Env) (inst : BrowserInstance)
    (fuel : Nat) (s : MState) :
    ∃ m c pgs np nb cs cl, (attemptRecoveryTargeted env inst fuel s).1
      = { s with browserInstances := m, clock := c, pages := pgs, nextPageId := np, nextBrowserId := nb, connectSuccesses := cs, connectLog := cl, recoveryCalls := s.recoveryCalls + 1 } := by
  unfold attemptRecoveryTargeted
  rcases recoveryLoop_frame env inst.endpoint inst.pagePool fuel 1
      { s with recoveryCalls := s.recoveryCalls + 1 } []
    with ⟨m, c, pgs, np, nb, cs, cl, h1⟩
  exact ⟨m, c, pgs, np, nb, cs, cl, by rw [h1]⟩

theorem checkFail_frame (env : Env) (inst : BrowserInstance) (fuel : Nat)
    (s : MState) :
    ∃ m c pgs np nb cs cl, (checkFail env inst fuel s).1
      = { s with browserInstances := m, clock := c, pages := pgs, nextPageId := np, nextBrowserId := nb, connectSuccesses := cs, connectLog := cl, recoveryCalls := s.recoveryCalls + 1 } := by
  unfold checkFail
  dsimp only
  rcases attemptRecoveryTargeted_frame env { inst with healthy := false } fuel
      { s with browserInstances := mapSet s.browserInstances { inst with healthy := false } }
    with ⟨m, c, pgs, np, nb, cs, cl, h1⟩
  exact ⟨m, c, pgs, np, nb, cs, cl, by rw [h1]⟩

theorem checkBrowserHealth_frame (env : Env) (inst : BrowserInstance)
    (fuel : Nat) (s : MState) :
    ∃ m c pgs np nb cs cl rc gl, (checkBrowserHealth env inst fuel s).1
      = { s with browserInstances := m, clock := c, pages := pgs, nextPageId := np, nextBrowserId := nb, connectSuccesses := cs, connectLog := cl, recoveryCalls := rc, gotoLog := gl, healthChecksRun := s.healthChecksRun ++ [inst.endpoint] } := by
  unfold checkBrowserHealth
  dsimp only [tick]
  split
  · rcases h : createAndSecurePage env inst.browserId { s with healthChecksRun := s.healthChecksRun ++ [inst.endpoint], clock := s.clock + 1 } with ⟨s2, r⟩
    obtain ⟨c, pgs, np, h2⟩ := by
      have := createAndSecurePage_frame env inst.browserId { s with healthChecksRun := s.healthChecksRun ++ [inst.endpoint], clock := s.clock + 1 }
      rw [h] at this
      exact this
    dsimp only at h2
    subst h2
    cases r with
    | ok pid =>
      dsimp only
      rcases h3 : pageGoto env pid DEFAULT_PAGE_TIMEOUT { s with healthChecksRun := s.healthChecksRun ++ [inst.endpoint], clock := c, pages := pgs, nextPageId := np } with ⟨s3, r3⟩
      obtain h3f := by
        have := pageGoto_frame env pid DEFAULT_PAGE_TIMEOUT { s with healthChecksRun := s.healthChecksRun ++ [inst.endpoint], clock := c, pages := pgs, nextPageId := np }
        rw [h3] at this
        exact this
      dsimp only at h3f
      subst h3f
      cases r3 with
      | ok u =>
        dsimp only [pageClose]
        exact ⟨mapSet s.browserInstances { inst with healthy := true, lastHealthCheck := c + 1 }, c + 1, updatePage pgs pid (fun ps => { ps with closed := true }), np, s.nextBrowserId, s.connectSuccesses, s.connectLog, s.recoveryCalls, s.gotoLog ++ [(pid, DEFAULT_PAGE_TIMEOUT)], rfl⟩
      | error e3 =>
        dsimp only
        rcases checkFail_frame env inst fuel { s with healthChecksRun := s.healthChecksRun ++ [inst.endpoint], clock := c + 1, pages := pgs, nextPageId := np, gotoLog := s.gotoLog ++ [(pid, DEFAULT_PAGE_TIMEOUT)] } with ⟨m, c2, pgs2, np2, nb2, cs2, cl2, h4⟩
        exact ⟨m, c2, pgs2, np2, nb2, cs2, cl2, _, s.gotoLog ++ [(pid, DEFAULT_PAGE_TIMEOUT)], by rw [h4]⟩
    | error e2 =>
      dsimp only
      rcases checkFail_frame env inst fuel { s with healthChecksRun := s.healthChecksRun ++ [inst.endpoint], clock := c, pages := pgs, nextPageId := np } with ⟨m, c2, pgs2, np2, nb2, cs2, cl2, h4⟩
      exact ⟨m, c2, pgs2, np2, nb2, cs2, cl2, _, s.gotoLog, by rw [h4]⟩
  · rcases checkFail_frame env inst fuel { s with healthChecksRun := s.healthChecksRun ++ [inst.endpoint], clock := s.clock + 1 } with ⟨m, c2, pgs2, np2, nb2, cs2, cl2, h4⟩
    exact ⟨m, c2, pgs2, np2, nb2, cs2, cl2, _, s.gotoLog, by rw [h4]⟩

theorem tryCreatePage_frame (env : Env) (inst : BrowserInstance) (s : MState) :
    ∃ m c pgs np, (tryCreatePage env inst s).1
      = { s with browserInstances := m, clock := c, pages := pgs, nextPageId := np } := by
  unfold tryCreatePage
  rcases h : createAndSecurePage env inst.browserId s with ⟨s1, r⟩
  obtain ⟨c, pgs, np, h1⟩ := by
    have := createAndSecurePage_frame env inst.browserId s
    rw [h] at this
    exact this
  dsimp only at h1
  subst h1
  cases r with
  | ok pid => exact ⟨s.browserInstances, c, pgs, np, rfl⟩
  | error e => exact ⟨_, c, pgs, np, rfl⟩

theorem tryCreatePage_poolBound (env : Env) (inst : BrowserInstance) (s : MState)
    (hs : PoolBound s.browserInstances)
    (hbi : inst.pagePool.length ≤ PAGE_POOL_SIZE) :
    PoolBound (tryCreatePage env inst s).1.browserInstances := by
  unfold tryCreatePage
  rcases h : createAndSecurePage env inst.browserId s with ⟨s1, r⟩
  obtain ⟨c, pgs, np, h1⟩ := by
    have := createAndSecurePage_frame env inst.browserId s
    rw [h] at this
    exact this
  dsimp only at h1
  subst h1
  cases r with
  | ok pid => exact hs
  | error e => exact poolBound_mapSet hs hbi

theorem getPageLoop_frame (env : Env) (insts : List BrowserInstance) (s : MState) :
    ∃ m c pgs np, (getPageLoop env insts s).1
      = { s with browserInstances := m, clock := c, pages := pgs, nextPageId := np } := by
  induction insts generalizing s with
  | nil => exact ⟨s.browserInstances, s.clock, s.pages, s.nextPageId, rfl⟩
  | cons inst rest ih =>
    unfold getPageLoop
    dsimp only
    split
    · rename_i pid poolRest heq
      rcases hv : validatePage env pid { s with browserInstances := mapSet s.browserInstances { inst with pagePool := poolRest } } with ⟨s2, b⟩
      obtain ⟨c, h2⟩ := by
        have := validatePage_frame env pid { s with browserInstances := mapSet s.browserInstances { inst with pagePool := poolRest } }
        rw [hv] at this
        exact this
      dsimp only at h2
      subst h2
      cases b with
      | true => exact ⟨_, c, s.pages, s.nextPageId, rfl⟩
      | false =>
        dsimp only [pageClose]
        rcases ht : tryCreatePage env { inst with pagePool := poolRest } { s with browserInstances := mapSet s.browserInstances { inst with pagePool := poolRest }, clock := c, pages := updatePage s.pages pid (fun ps => { ps with closed := true }) } with ⟨s4, o⟩
        obtain ⟨m4, c4, pgs4, np4, h4⟩ := by
          have := tryCreatePage_frame env { inst with pagePool := poolRest } { s with browserInstances := mapSet s.browserInstances { inst with pagePool := poolRest }, clock := c, pages := updatePage s.pages pid (fun ps => { ps with closed := true }) }
          rw [ht] at this
          exact this
        dsimp only at h4
        subst h4
        cases o with
        | some p => exact ⟨m4, c4, pgs4, np4, rfl⟩
        | none =>
          rcases ih { s with browserInstances := m4, clock := c4, pages := pgs4, nextPageId := np4 } with ⟨m5, c5, pgs5, np5, h5⟩
          exact ⟨m5, c5, pgs5, np5, by rw [h5]⟩
    · rcases ht : tryCreatePage env inst s with ⟨s1, o⟩
      obtain ⟨m1, c1, pgs1, np1, h1⟩ := by
        have := tryCreatePage_frame env inst s
        rw [ht] at this
        exact this
      dsimp only at h1
      subst h1
      cases o with
      | some p => exact ⟨m1, c1, pgs1, np1, rfl⟩
      | none =>
        rcases ih { s with browserInstances := m1, clock := c1, pages := pgs1, nextPageId := np1 } with ⟨m5, c5, pgs5, np5, h5⟩
        exact ⟨m5, c5, pgs5, np5, by rw [h5]⟩

theorem getPageLoop_poolBound (env : Env) (insts : List BrowserInstance)
    (s : MState) (hs : PoolBound s.browserInstances)
    (hb : ∀ i ∈ insts, i.pagePool.length ≤ PAGE_POOL_SIZE) :
    PoolBound (getPageLoop env insts s).1.browserInstances := by
  induction insts generalizing s with
  | nil => exact hs
  | cons inst rest ih =>
    have hbi : inst.pagePool.length ≤ PAGE_POOL_SIZE :=
      hb inst (List.mem_cons_self _ _)
    have hbr : ∀ i ∈ rest, i.pagePool.length ≤ PAGE_POOL_SIZE :=
      fun i hi => hb i (List.mem_cons_of_mem _ hi)
    unfold getPageLoop
    dsimp only
    split
    · rename_i pid poolRest heq
      have hb1 : ({ inst with pagePool := poolRest } : BrowserInstance).pagePool.length
          ≤ PAGE_POOL_SIZE := by
        rw [heq] at hbi
        simp only [List.length_cons] at hbi
        simp only
        omega
      have hs1 : PoolBound (mapSet s.browserInstances { inst with pagePool := poolRest }) :=
        poolBound_mapSet hs hb1
      rcases hv : validatePage env pid { s with browserInstances := mapSet s.browserInstances { inst with pagePool := poolRest } } with ⟨s2, b⟩
      obtain ⟨c, h2⟩ := by
        have := validatePage_frame env pid { s with browserInstances := mapSet s.browserInstances { inst with pagePool := poolRest } }
        rw [hv] at this
        exact this
      dsimp only at h2
      subst h2
      cases b with
      | true => exact hs1
      | false =>
        dsimp only [pageClose]
        rcases ht : tryCreatePage env { inst with pagePool := poolRest } { s with browserInstances := mapSet s.browserInstances { inst with pagePool := poolRest }, clock := c, pages := updatePage s.pages pid (fun ps => { ps with closed := true }) } with ⟨s4, o⟩
        have hs4 : PoolBound s4.browserInstances := by
          have := tryCreatePage_poolBound env { inst with pagePool := poolRest } { s with browserInstances := mapSet s.browserInstances { inst with pagePool := poolRest }, clock := c, pages := updatePage s.pages pid (fun ps => { ps with closed := true }) } hs1 hb1
          rw [ht] at this
          exact this
        cases o with
        | some p => exact hs4
        | none => exact ih s4 hs4 hbr
    · rcases ht : tryCreatePage env inst s with ⟨s1, o⟩
      have hs1 : PoolBound s1.browserInstances := by
        have := tryCreatePage_poolBound env inst s hs hbi
        rw [ht] at this
        exact this
      cases o with
      | some p => exact hs1
      | none => exact ih s1 hs1 hbr

theorem warmupLoop_ok_length (env : Env) (b : Nat) :
    ∀ (n : Nat) (s : MState) (acc : List Nat) (s' : MState) (pool : List Nat),
      warmupLoop env b n s acc = (s', Except.ok pool) →
      pool.length = acc.length + n := by
  intro n
  induction n with
  | zero =>
    intro s acc s' pool h
    unfold warmupLoop at h
    simp only [Prod.mk.injEq] at h
    rcases h with ⟨h1, h2⟩
    cases h2
    simp
  | succ n ih =>
    intro s acc s' pool h
    unfold warmupLoop at h
    rcases hc : createAndSecurePage env b s with ⟨s1, r⟩
    rw [hc] at h
    cases r with
    | ok pid =>
      have := ih s1 (acc ++ [pid]) s' pool h
      simp only [List.length_append, List.length_cons, List.length_nil] at this
      omega
    | error e => simp at h

theorem connectCleanup_poolBound (s : MState) (e : String)
    (hs : PoolBound s.browserInstances) :
    PoolBound (connectCleanup s e).browserInstances := by
  unfold connectCleanup
  cases mapGet s.browserInstances e
  · exact hs
  · exact poolBound_mapDelete hs

theorem connectToBrowser_poolBound (env : Env) (e : String) (s : MState)
    (hs : PoolBound s.browserInstances) :
    PoolBound (connectToBrowser env e s).1.browserInstances := by
  unfold connectToBrowser
  dsimp only
  rcases h : chromiumConnect env { s with connectLog := s.connectLog ++ [e] } with ⟨s1, r⟩
  obtain ⟨c, b, h1⟩ := by
    have := chromiumConnect_frame env { s with connectLog := s.connectLog ++ [e] }
    rw [h] at this
    exact this
  dsimp only at h1
  subst h1
  cases r with
  | error err => exact connectCleanup_poolBound _ e hs
  | ok bId =>
    dsimp only
    have hsf : PoolBound (mapSet s.browserInstances (freshInstance bId e c)) :=
      poolBound_mapSet hs (by simp [freshInstance, PAGE_POOL_SIZE])
    rcases h2 : warmupLoop env bId PAGE_POOL_SIZE { s with connectLog := s.connectLog ++ [e], clock := c, nextBrowserId := b, browserInstances := mapSet s.browserInstances (freshInstance bId e c) } [] with ⟨s3, r3⟩
    obtain ⟨c2, pgs, np, h3⟩ := by
      have := warmupLoop_frame env bId PAGE_POOL_SIZE { s with connectLog := s.connectLog ++ [e], clock := c, nextBrowserId := b, browserInstances := mapSet s.browserInstances (freshInstance bId e c) } []
      rw [h2] at this
      exact this
    dsimp only at h3
    subst h3
    cases r3 with
    | ok pool =>
      dsimp only
      have hlen : pool.length = PAGE_POOL_SIZE := by
        have := warmupLoop_ok_length env bId PAGE_POOL_SIZE _ [] _ pool h2
        simpa using this
      exact poolBound_mapSet hsf (by simp [hlen])
    | error err => exact connectCleanup_poolBound _ e hsf

theorem connectAll_poolBound (env : Env) (es : List String) (s : MState)
    (hs : PoolBound s.browserInstances) :
    PoolBound (connectAll env es s).browserInstances := by
  induction es generalizing s with
  | nil => exact hs
  | cons e rest ih =>
    unfold connectAll
    exact ih _ (connectToBrowser_poolBound env e s hs)

theorem initializeConnections_poolBound (env : Env) (s : MState)
    (hs : PoolBound s.browserInstances) :
    PoolBound (initializeConnections env s).1.browserInstances := by
  unfold initializeConnections
  dsimp only
  split
  · exact hs
  · split
    · exact connectAll_poolBound env _ s hs
    · exact connectAll_poolBound env _ s hs

theorem attemptRecoveryGlobal_poolBound (env : Env) (s : MState)
    (hs : PoolBound s.browserInstances) :
    PoolBound (attemptRecoveryGlobal env s).1.browserInstances := by
  unfold attemptRecoveryGlobal
  exact initializeConnections_poolBound env _ hs

theorem recoveryLoop_poolBound (env : Env) (ept : String) (pool : List Nat)
    (fuel attempt : Nat) (s : MState) (delays : List Nat)
    (hs : PoolBound s.browserInstances) :
    PoolBound (recoveryLoop env ept pool fuel attempt s delays).1.browserInstances := by
  induction fuel generalizing attempt s delays with
  | zero => exact hs
  | succ fuel ih =>
    unfold recoveryLoop
    dsimp only
    rcases h0 : closePages { s with browserInstances := mapDelete s.browserInstances ept } pool with s2
    obtain ⟨pgs0, h0f⟩ := by
      have := closePages_frame pool { s with browserInstances := mapDelete s.browserInstances ept }
      rw [h0] at this
      exact this
    have hs2 : PoolBound s2.browserInstances := by
      rw [h0f]
      exact poolBound_mapDelete hs
    rcases h : connectToBrowser env ept s2 with ⟨s3, r⟩
    have hs3 : PoolBound s3.browserInstances := by
      have := connectToBrowser_poolBound env ept s2 hs2
      rw [h] at this
      exact this
    cases r with
    | ok bId => exact hs3
    | error err => exact ih (attempt + 1) s3 _ hs3

theorem attemptRecoveryTargeted_poolBound (env : Env) (inst : BrowserInstance)
    (fuel : Nat) (s : MState) (hs : PoolBound s.browserInstances) :
    PoolBound (attemptRecoveryTargeted env inst fuel s).1.browserInstances := by
  unfold attemptRecoveryTargeted
  exact recoveryLoop_poolBound env _ _ fuel 1 _ [] hs

theorem checkFail_poolBound (env : Env) (inst : BrowserInstance) (fuel : Nat)
    (s : MState) (hs : PoolBound s.browserInstances)
    (hbi : inst.pagePool.length ≤ PAGE_POOL_SIZE) :
    PoolBound (checkFail env inst fuel s).1.browserInstances := by
  unfold checkFail
  dsimp only
  exact attemptRecoveryTargeted_poolBound env _ fuel _ (poolBound_mapSet hs hbi)

theorem checkBrowserHealth_poolBound (env : Env) (inst : BrowserInstance)
    (fuel : Nat) (s : MState) (hs : PoolBound s.browserInstances)
    (hbi : inst.pagePool.length ≤ PAGE_POOL_SIZE) :
    PoolBound (checkBrowserHealth env inst fuel s).1.browserInstances := by
  unfold checkBrowserHealth
  dsimp only [tick]
  split
  · rcases h : createAndSecurePage env inst.browserId { s with healthChecksRun := s.healthChecksRun ++ [inst.endpoint], clock := s.clock + 1 } with ⟨s2, r⟩
    obtain ⟨c, pgs, np, h2⟩ := by
      have := createAndSecurePage_frame env inst.browserId { s with healthChecksRun := s.healthChecksRun ++ [inst.endpoint], clock := s.clock + 1 }
      rw [h] at this
      exact this
    dsimp only at h2
    subst h2
    cases r with
    | ok pid =>
      dsimp only
      rcases h3 : pageGoto env pid DEFAULT_PAGE_TIMEOUT { s with healthChecksRun := s.healthChecksRun ++ [inst.endpoint], clock := c, pages := pgs, nextPageId := np } with ⟨s3, r3⟩
      obtain h3f := by
        have := pageGoto_frame env pid DEFAULT_PAGE_TIMEOUT { s with healthChecksRun := s.healthChecksRun ++ [inst.endpoint], clock := c, pages := pgs, nextPageId := np }
        rw [h3] at this
        exact this
      dsimp only at h3f
      subst h3f
      cases r3 with
      | ok u =>
        dsimp only [pageClose]
        exact poolBound_mapSet hs hbi
      | error e3 => exact checkFail_poolBound env inst fuel _ hs hbi
    | error e2 => exact checkFail_poolBound env inst fuel _ hs hbi
  · exact checkFail_poolBound env inst fuel _ hs hbi

theorem healthTickGo_poolBound (env : Env) (fuel : Nat)
    (insts : List BrowserInstance) (s : MState)
    (hs : PoolBound s.browserInstances)
    (hb : ∀ i ∈ insts, i.pagePool.length ≤ PAGE_POOL_SIZE) :
    PoolBound (healthTickGo env fuel insts s).1.browserInstances := by
  induction insts generalizing s with
  | nil => exact hs
  | cons inst rest ih =>
    unfold healthTickGo
    rcases h : checkBrowserHealth env inst fuel s with ⟨s1, done⟩
    have hs1 : PoolBound s1.browserInstances := by
      have := checkBrowserHealth_poolBound env inst fuel s hs
        (hb inst (List.mem_cons_self _ _))
      rw [h] at this
      exact this
    cases done with
    | true => exact ih s1 hs1 (fun i hi => hb i (List.mem_cons_of_mem _ hi))
    | false => exact hs1

theorem mem_insertByLen {x y : BrowserInstance} {l : List BrowserInstance}
    (h : y ∈ insertByLen x l) : y = x ∨ y ∈ l := by
  induction l with
  | nil => simpa [insertByLen] using h
  | cons a as ih =>
    unfold insertByLen at h
    split at h
    · rcases List.mem_cons.mp h with h1 | h1
      · exact Or.inl h1
      · exact Or.inr h1
    · rcases List.mem_cons.mp h with h1 | h1
      · exact Or.inr (h1 ▸ List.mem_cons_self a as)
      · rcases ih h1 with h2 | h2
        · exact Or.inl h2
        · exact Or.inr (List.mem_cons_of_mem a h2)

theorem mem_sortByPoolDesc {y : BrowserInstance} {l : List BrowserInstance}
    (h : y ∈ sortByPoolDesc l) : y ∈ l := by
  induction l with
  | nil => simpa [sortByPoolDesc] using h
  | cons a as ih =>
    unfold sortByPoolDesc at h
    simp only [List.foldr_cons] at h
    rcases mem_insertByLen h with h1 | h1
    · exact h1 ▸ List.mem_cons_self a as
    · exact List.mem_cons_of_mem a (ih h1)

theorem length_insertByLen (x : BrowserInstance) (l : List BrowserInstance) :
    (insertByLen x l).length = l.length + 1 := by
  induction l with
  | nil => rfl
  | cons a as ih =>
    unfold insertByLen
    split
    · simp
    · simp [ih]

theorem length_sortByPoolDesc (l : List BrowserInstance) :
    (sortByPoolDesc l).length = l.length := by
  induction l with
  | nil => rfl
  | cons a as ih =>
    unfold sortByPoolDesc at ih ⊢
    simp only [List.foldr_cons, length_insertByLen, ih, List.length_cons]

theorem findInstanceByPage_mem {s : MState} {pid : Nat} {inst : BrowserInstance}
    (h : findInstanceByPage s pid = some inst) : inst ∈ s.browserInstances := by
  unfold findInstanceByPage at h
  cases hp : pageGet s.pages pid with
  | none => rw [hp] at h; cases h
  | some ps =>
    rw [hp] at h
    exact List.mem_of_find?_eq_some h

theorem returnPage_poolInv (env : Env) (pid : Nat) (s : MState) (hs : PoolInv s) :
    PoolInv (returnPage env pid s) := by
  unfold returnPage
  cases hf : findInstanceByPage s pid with
  | none => exact hs
  | some inst =>
    dsimp only
    split
    · rename_i hlt
      rcases h : resetPage env pid s with ⟨s1, r⟩
      obtain ⟨c, pgs, np, gl, h1⟩ := by
        have := resetPage_frame env pid s
        rw [h] at this
        exact this
      dsimp only at h1
      subst h1
      cases r with
      | ok resetPid =>
        refine poolBound_mapSet hs ?_
        simp only [List.length_append, List.length_cons, List.length_nil]
        omega
      | error e => exact hs
    · exact hs

theorem returnPage_full_registry (env : Env) (pid : Nat) (s : MState)
    (inst : BrowserInstance) (hf : findInstanceByPage s pid = some inst)
    (hfull : ¬ inst.pagePool.length < PAGE_POOL_SIZE) :
    (returnPage env pid s).browserInstances = s.browserInstances := by
  unfold returnPage
  rw [hf]
  dsimp only
  rw [if_neg hfull]
  rfl

theorem getAvailablePage_poolInv (env : Env) (s : MState) (hs : PoolInv s) :
    PoolInv (getAvailablePage env s).1 := by
  unfold getAvailablePage
  dsimp only
  split
  · rcases h : attemptRecoveryGlobal env s with ⟨s1, r⟩
    have h1 : PoolBound s1.browserInstances := by
      have := attemptRecoveryGlobal_poolBound env s hs
      rw [h] at this
      exact this
    cases r with
    | ok u => exact h1
    | error e => exact h1
  · rcases h : getPageLoop env (sortByPoolDesc (s.browserInstances.filter (fun i => i.healthy))) s with ⟨s1, o⟩
    have h1 : PoolBound s1.browserInstances := by
      have := getPageLoop_poolBound env
        (sortByPoolDesc (s.browserInstances.filter (fun i => i.healthy))) s hs
        (fun i hi => hs i (List.mem_of_mem_filter (mem_sortByPoolDesc hi)))
      rw [h] at this
      exact this
    cases o with
    | some p => exact h1
    | none => exact h1

theorem healthTick_poolInv (env : Env) (fuel : Nat) (s : MState)
    (hs : PoolInv s) : PoolInv (healthTick env fuel s).1 := by
  unfold healthTick
  exact healthTickGo_poolBound env fuel s.browserInstances s hs (fun i hi => hs i hi)

theorem cleanup_poolInv (s : MState) : PoolInv (cleanup s) := by
  intro i hi
  unfold cleanup at hi
  dsimp only at hi
  cases hi

theorem connectToBrowser_ok_pool (env : Env) (e : String) (s : MState)
    {s' : MState} {b : Nat} (h : connectToBrowser env e s = (s', Except.ok b)) :
    ∃ inst, mapGet s'.browserInstances e = some inst ∧
      inst.pagePool.length = PAGE_POOL_SIZE := by
  unfold connectToBrowser at h
  dsimp only at h
  rcases hc : chromiumConnect env { s with connectLog := s.connectLog ++ [e] } with ⟨s1, r⟩
  rw [hc] at h
  cases r with
  | error err => cases h
  | ok bId =>
    dsimp only at h
    rcases h2 : warmupLoop env bId PAGE_POOL_SIZE { s1 with browserInstances := mapSet s1.browserInstances (freshInstance bId e s1.clock) } [] with ⟨s3, r3⟩
    rw [h2] at h
    cases r3 with
    | error err => cases h
    | ok pool =>
      dsimp only [Prod.mk.injEq] at h
      rcases h with ⟨h4, h5⟩
      have hlen : pool.length = PAGE_POOL_SIZE := by
        have := warmupLoop_ok_length env b PAGE_POOL_SIZE _ [] _ pool h2
        simpa using this
      refine ⟨{ freshInstance b e s1.clock with pagePool := pool }, ?_, by simpa using hlen⟩
      have := mapGet_mapSet_self s3.browserInstances
        { freshInstance b e s1.clock with pagePool := pool }
      simpa [freshInstance] using this

/-- All-succeeding I/O oracle, used by concrete witnesses. -/
def envAllOk : Env :=
  { browserEndpoints := some ("a"), connectOk := fun _ => true,
    newPageOk := fun _ => true, gotoOk := fun _ => true,
    evalOk := fun _ => true, isConnected := fun _ => true }

/-- All-failing I/O oracle, used by concrete counterexamples. -/
def envAllFail : Env :=
  { browserEndpoints := some ("a"), connectOk := fun _ => false,
    newPageOk := fun _ => false, gotoOk := fun _ => false,
    evalOk := fun _ => false, isConnected := fun _ => false }

/-- Empty initial manager state. -/
def mInit : MState :=
  { browserInstances := [], pages := [], nextPageId := 0, nextBrowserId := 0,
    clock := 0, recoveryCalls := 0, connectLog := [], connectSuccesses := 0,
    gotoLog := [], healthChecksRun := [] }

/-- A registered healthy instance holding pooled page 0 (witness data). -/
def instW : BrowserInstance :=
  { browserId := 0, pagePool := [0], endpoint := "a", healthy := true,
    lastHealthCheck := 0, markedForShutdown := false }

/-- Page table with the single open hardened page 0 (witness data). -/
def pagesW : List (Nat × PageState) :=
  [(0, { closed := false, browserId := 0, secured := true, defaultTimeout := 5000 })]

/-- Witness state: one healthy instance, one pooled open page. -/
def mW : MState :=
  { browserInstances := [instW], pages := pagesW, nextPageId := 1,
    nextBrowserId := 1, clock := 0, recoveryCalls := 0, connectLog := [],
    connectSuccesses := 0, gotoLog := [], healthChecksRun := [] }

/-- C1: every operation of the manager (warm-up in `connectToBrowser`,
checkout in `getAvailablePage`, return in `returnPage`, the health tick,
both recovery shapes, `initializeConnections`, and shutdown `cleanup`)
preserves the invariant that each registered instance's pool holds at most
`PAGE_POOL_SIZE` (10) pages; a successful `connectToBrowser` registers the
endpoint with exactly `PAGE_POOL_SIZE` warm pages; and `returnPage` against
a full pool leaves the registry, hence that pool's length, unchanged —
i.e. it pushes only when the pool is strictly below `PAGE_POOL_SIZE`. -/
theorem C1_pool_size_invariant (env : Env) (s : MState) (e : String)
    (pid fuel : Nat) (inst0 : BrowserInstance) (hs : PoolInv s) :
    PoolInv (connectToBrowser env e s).1 ∧
    (∀ s' b, connectToBrowser env e s = (s', Except.ok b) →
      ∃ inst, mapGet s'.browserInstances e = some inst ∧
        inst.pagePool.length = PAGE_POOL_SIZE) ∧
    PoolInv (getAvailablePage env s).1 ∧
    PoolInv (returnPage env pid s) ∧
    (∀ inst, findInstanceByPage s pid = some inst →
      ¬ inst.pagePool.length < PAGE_POOL_SIZE →
      (returnPage env pid s).browserInstances = s.browserInstances) ∧
    PoolInv (healthTick env fuel s).1 ∧
    PoolInv (attemptRecoveryTargeted env inst0 fuel s).1 ∧
    PoolInv (attemptRecoveryGlobal env s).1 ∧
    PoolInv (initializeConnections env s).1 ∧
    PoolInv (cleanup s) :=
  ⟨connectToBrowser_poolBound env e s hs,
    fun _ _ h => connectToBrowser_ok_pool env e s h,
    getAvailablePage_poolInv env s hs,
    returnPage_poolInv env pid s hs,
    fun inst hf hfull => returnPage_full_registry env pid s inst hf hfull,
    healthTick_poolInv env fuel s hs,
    attemptRecoveryTargeted_poolBound env inst0 fuel s hs,
    attemptRecoveryGlobal_poolBound env s hs,
    initializeConnections_poolBound env s hs,
    cleanup_poolInv s⟩

/-- Witness for C1: the invariant is established concretely after a return
and after shutdown on a one-instance state. -/
theorem C1_pool_size_invariant_witness :
    PoolInv (returnPage envAllOk 0 mW) ∧ PoolInv (cleanup mW) := by
  have h := C1_pool_size_invariant envAllOk mW ("a") 0 2 instW (by unfold PoolInv; decide)
  exact ⟨h.2.2.2.1, h.2.2.2.2.2.2.2.2.2⟩

theorem connectToBrowser_fail (env : Env) (e : String) (s : MState)
    (hc : ∀ t, env.connectOk t = false) :
    (connectToBrowser env e s).2 = Except.error BError.connectFailed := by
  simp [connectToBrowser, chromiumConnect, hc]

theorem recoveryLoop_delays (env : Env) (ept : String) (pool : List Nat)
    (hc : ∀ t, env.connectOk t = false) :
    ∀ (fuel attempt : Nat) (s : MState) (delays : List Nat),
      (recoveryLoop env ept pool fuel attempt s delays).2.1
        = delays ++ (List.range fuel).map (fun i =>
            min (INITIAL_RECONNECT_DELAY * 2 ^ (attempt + i - 1))
                (INITIAL_RECONNECT_DELAY * MAX_RECONNECT_MULTIPLIER)) := by
  intro fuel
  induction fuel with
  | zero =>
    intro attempt s delays
    simp [recoveryLoop]
  | succ fuel ih =>
    intro attempt s delays
    unfold recoveryLoop
    dsimp only
    rcases h : connectToBrowser env ept (closePages { s with browserInstances := mapDelete s.browserInstances ept } pool) with ⟨s3, r⟩
    have hr : r = Except.error BError.connectFailed := by
      have := connectToBrowser_fail env ept
        (closePages { s with browserInstances := mapDelete s.browserInstances ept } pool) hc
      rw [h] at this
      exact this
    subst hr
    dsimp only
    rw [ih (attempt + 1) s3 _]
    have hfun : (fun i => min (INITIAL_RECONNECT_DELAY * 2 ^ (attempt + 1 + i - 1))
          (INITIAL_RECONNECT_DELAY * MAX_RECONNECT_MULTIPLIER))
        = (fun i => min (INITIAL_RECONNECT_DELAY * 2 ^ (attempt + (i + 1) - 1))
          (INITIAL_RECONNECT_DELAY * MAX_RECONNECT_MULTIPLIER)) := by
      funext i
      have harith : attempt + 1 + i - 1 = attempt + (i + 1) - 1 := by omega
      rw [harith]
    rw [hfun, List.range_succ_eq_map, List.map_cons, List.map_map]
    simp only [List.append_assoc, List.cons_append, List.nil_append]
    have harith0 : attempt + 0 - 1 = attempt - 1 := by omega
    simp [Function.comp, harith0]

/-- C5: when every reconnection attempt fails, the backoff delay recorded for
attempt n (n ≥ 1) of the targeted recovery loop equals
`min(INITIAL_RECONNECT_DELAY * 2^(n-1),
INITIAL_RECONNECT_DELAY * MAX_RECONNECT_MULTIPLIER)`; with the constants
1000 ms and 3 the delays of the first four failed attempts are
1000, 2000, 3000, 3000 milliseconds. -/
theorem C5_backoff_delays (env : Env) (inst : BrowserInstance) (fuel : Nat)
    (s : MState) (hc : ∀ t, env.connectOk t = false) :
    (attemptRecoveryTargeted env inst fuel s).2.1
      = (List.range fuel).map (fun i =>
          min (INITIAL_RECONNECT_DELAY * 2 ^ ((i + 1) - 1))
              (INITIAL_RECONNECT_DELAY * MAX_RECONNECT_MULTIPLIER)) ∧
    (List.range 4).map (fun i =>
        min (INITIAL_RECONNECT_DELAY * 2 ^ ((i + 1) - 1))
            (INITIAL_RECONNECT_DELAY * MAX_RECONNECT_MULTIPLIER))
      = [1000, 2000, 3000, 3000] := by
  constructor
  · unfold attemptRecoveryTargeted
    rw [recoveryLoop_delays env inst.endpoint inst.pagePool hc fuel 1 _ []]
    simp only [List.nil_append]
    have hfun : (fun i => min (INITIAL_RECONNECT_DELAY * 2 ^ (1 + i - 1))
          (INITIAL_RECONNECT_DELAY * MAX_RECONNECT_MULTIPLIER))
        = (fun i => min (INITIAL_RECONNECT_DELAY * 2 ^ ((i + 1) - 1))
          (INITIAL_RECONNECT_DELAY * MAX_RECONNECT_MULTIPLIER)) := by
      funext i
      have harith : 1 + i - 1 = i + 1 - 1 := by omega
      rw [harith]
    rw [hfun]
  · decide

/-- Witness for C5: four failing attempts against the all-failing oracle
record exactly the delays 1000, 2000, 3000, 3000. -/
theorem C5_backoff_delays_witness :
    (attemptRecoveryTargeted envAllFail instW 4 mW).2.1 = [1000, 2000, 3000, 3000] := by
  have h := C5_backoff_delays envAllFail instW 4 mW (fun t => rfl)
  rw [h.1, h.2]

theorem splitComma_ne_nil (l : List Char) : splitComma l ≠ [] := by
  cases l with
  | nil => simp [splitComma]
  | cons c rest =>
    unfold splitComma
    split
    · simp
    · split <;> simp

theorem getEndpoints_eq_nil (v : Option String) :
    getEndpoints v = [] ↔ v = none := by
  cases v with
  | none => simp [getEndpoints]
  | some str =>
    simp only [getEndpoints]
    constructor
    · intro h
      rw [List.map_eq_nil, List.map_eq_nil] at h
      exact absurd h (splitComma_ne_nil _)
    · intro h
      cases h

theorem initializeConnections_noEndpoints_iff (env : Env) (s : MState) :
    (initializeConnections env s).2 = Except.error BError.noEndpointsConfigured
      ↔ env.browserEndpoints = none := by
  constructor
  · intro h
    cases henv : env.browserEndpoints with
    | none => rfl
    | some str =>
      exfalso
      unfold initializeConnections at h
      rw [henv] at h
      dsimp only at h
      have hne : getEndpoints (some str) ≠ [] := fun hh => by
        cases (getEndpoints_eq_nil (some str)).mp hh
      have hlen : ((getEndpoints (some str)).length == 0) = false := by
        cases he : getEndpoints (some str) with
        | nil => exact absurd he hne
        | cons a as => rfl
      rw [hlen] at h
      simp only [Bool.false_eq_true, if_false] at h
      split at h <;> simp at h
  · intro h
    unfold initializeConnections
    rw [h]
    rfl

/-- C9: with `BROWSER_ENDPOINTS` set to the empty string, endpoint parsing
yields the single empty-string endpoint, so `initializeConnections` does not
raise the no-endpoints error but instead attempts (and logs) exactly one
connection, to the empty endpoint; the no-endpoints error is raised if and
only if the variable is entirely absent. -/
theorem C9_empty_string_endpoint :
    getEndpoints none = [] ∧
    getEndpoints (some ("")) = [""] ∧
    (∀ v, getEndpoints v = [] ↔ v = none) ∧
    (∀ env s, env.browserEndpoints = some ("") →
      (initializeConnections env s).2 ≠ Except.error BError.noEndpointsConfigured ∧
      (initializeConnections env s).1.connectLog = s.connectLog ++ [""]) ∧
    (∀ env s,
      (initializeConnections env s).2 = Except.error BError.noEndpointsConfigured
        ↔ env.browserEndpoints = none) := by
  refine ⟨rfl, by decide, getEndpoints_eq_nil, ?_, initializeConnections_noEndpoints_iff⟩
  intro env s h
  constructor
  · exact (initializeConnections_noEndpoints_iff env s).not.mpr (by rw [h]; simp)
  · unfold initializeConnections
    rw [h]
    have he : getEndpoints (some ("")) = [""] := by decide
    rw [he]
    dsimp only
    rw [if_neg (by decide)]
    rcases connectAll_frame env [""] s with ⟨m, c, pgs, np, nb, cs, hca⟩
    split
    · dsimp only
      rw [hca]
    · dsimp only
      rw [hca]

/-- Witness for C9: with the variable set to the empty string the init call
on the empty state throws the all-connections-failed error (not the
no-endpoints one) and logs a single attempt against the empty endpoint. -/
theorem C9_empty_string_endpoint_witness :
    ((initializeConnections { envAllFail with browserEndpoints := some ("") } mInit).2
      ≠ Except.error BError.noEndpointsConfigured) ∧
    (initializeConnections { envAllFail with browserEndpoints := some ("") } mInit).1.connectLog = [""] := by
  have h := C9_empty_string_endpoint
  have h4 := h.2.2.2.1 { envAllFail with browserEndpoints := some ("") } mInit rfl
  exact ⟨h4.1, h4.2⟩

theorem mapGet_not_mem {m : List BrowserInstance} {e : String}
    (h : e ∉ keys m) : mapGet m e = none := by
  induction m with
  | nil => rfl
  | cons a as ih =>
    simp only [keys, List.map_cons, List.mem_cons, not_or] at h
    unfold mapGet
    have ha : (a.endpoint == e) = false :=
      beq_eq_false_iff_ne.mpr (fun hh => h.1 hh.symm)
    rw [ha]
    simp only [Bool.false_eq_true, if_false]
    exact ih (fun hh => h.2 (by simpa [keys] using hh))

theorem mapSet_not_mem {m : List BrowserInstance} {x : BrowserInstance}
    (h : x.endpoint ∉ keys m) : mapSet m x = m ++ [x] := by
  induction m with
  | nil => rfl
  | cons a as ih =>
    simp only [keys, List.map_cons, List.mem_cons, not_or] at h
    unfold mapSet
    have ha : (a.endpoint == x.endpoint) = false :=
      beq_eq_false_iff_ne.mpr (fun hh => h.1 hh.symm)
    rw [ha]
    simp only [Bool.false_eq_true, if_false, List.cons_append]
    rw [ih (fun hh => h.2 (by simpa [keys] using hh))]

theorem mapDelete_append_self {m : List BrowserInstance} {x : BrowserInstance}
    (h : x.endpoint ∉ keys m) : mapDelete (m ++ [x]) x.endpoint = m := by
  induction m with
  | nil => simp [mapDelete]
  | cons a as ih =>
    simp only [keys, List.map_cons, List.mem_cons, not_or] at h
    have ha : (a.endpoint == x.endpoint) = false :=
      beq_eq_false_iff_ne.mpr (fun hh => h.1 hh.symm)
    simp only [List.cons_append]
    unfold mapDelete
    rw [ha]
    simp only [Bool.false_eq_true, if_false]
    rw [ih (fun hh => h.2 (by simpa [keys] using hh))]

theorem mapSet_append_self {m : List BrowserInstance} {x y : BrowserInstance}
    (h : x.endpoint ∉ keys m) (hxy : y.endpoint = x.endpoint) :
    mapSet (m ++ [x]) y = m ++ [y] := by
  induction m with
  | nil => simp [mapSet, hxy]
  | cons a as ih =>
    simp only [keys, List.map_cons, List.mem_cons, not_or] at h
    have ha : (a.endpoint == y.endpoint) = false :=
      beq_eq_false_iff_ne.mpr (fun hh => h.1 (by rw [← hxy]; exact hh.symm))
    simp only [List.cons_append]
    unfold mapSet
    rw [ha]
    simp only [Bool.false_eq_true, if_false]
    rw [ih (fun hh => h.2 (by simpa [keys] using hh))]

theorem mapGet_append_self {m : List BrowserInstance} {x : BrowserInstance}
    (h : x.endpoint ∉ keys m) : mapGet (m ++ [x]) x.endpoint = some x := by
  induction m with
  | nil => simp [mapGet]
  | cons a as ih =>
    simp only [keys, List.map_cons, List.mem_cons, not_or] at h
    have ha : (a.endpoint == x.endpoint) = false :=
      beq_eq_false_iff_ne.mpr (fun hh => h.1 hh.symm)
    simp only [List.cons_append]
    unfold mapGet
    rw [ha]
    simp only [Bool.false_eq_true, if_false]
    exact ih (fun hh => h.2 (by simpa [keys] using hh))

theorem connectToBrowser_ok_registry (env : Env) (e : String) (s : MState)
    {s' : MState} {b : Nat} (hk : e ∉ keys s.browserInstances)
    (h : connectToBrowser env e s = (s', Except.ok b)) :
    (∃ inst, inst.endpoint = e ∧
      s'.browserInstances = s.browserInstances ++ [inst]) ∧
    s'.connectSuccesses = s.connectSuccesses + 1 := by
  unfold connectToBrowser at h
  dsimp only at h
  rcases hc : chromiumConnect env { s with connectLog := s.connectLog ++ [e] } with ⟨s1, r⟩
  obtain ⟨c, b2, h1⟩ := by
    have := chromiumConnect_frame env { s with connectLog := s.connectLog ++ [e] }
    rw [hc] at this
    exact this
  dsimp only at h1
  have hbi1 : s1.browserInstances = s.browserInstances := by rw [h1]
  have hcs1 : s1.connectSuccesses = s.connectSuccesses := by rw [h1]
  rw [hc] at h
  cases r with
  | error err => cases h
  | ok bId =>
    dsimp only at h
    rcases h2 : warmupLoop env bId PAGE_POOL_SIZE { s1 with browserInstances := mapSet s1.browserInstances (freshInstance bId e s1.clock) } [] with ⟨s3, r3⟩
    obtain ⟨c2, pgs, np, h3⟩ := by
      have := warmupLoop_frame env bId PAGE_POOL_SIZE { s1 with browserInstances := mapSet s1.browserInstances (freshInstance bId e s1.clock) } []
      rw [h2] at this
      exact this
    dsimp only at h3
    have hbi3 : s3.browserInstances = mapSet s1.browserInstances (freshInstance bId e s1.clock) := by rw [h3]
    have hcs3 : s3.connectSuccesses = s1.connectSuccesses := by rw [h3]
    rw [h2] at h
    cases r3 with
    | error err => cases h
    | ok pool =>
      dsimp only [Prod.mk.injEq] at h
      rcases h with ⟨h4, h5⟩
      have hset1 : mapSet s1.browserInstances (freshInstance b e s1.clock)
          = s1.browserInstances ++ [freshInstance b e s1.clock] :=
        mapSet_not_mem (by rw [hbi1]; exact hk)
      constructor
      · refine ⟨{ freshInstance b e s1.clock with pagePool := pool }, rfl, ?_⟩
        dsimp only
        rw [hbi3, hset1]
        rw [mapSet_append_self (x := freshInstance b e s1.clock) (y := { freshInstance b e s1.clock with pagePool := pool }) (by rw [hbi1]; exact hk) rfl]
        rw [hbi1]
      · dsimp only
        rw [hcs3, hcs1]

theorem connectToBrowser_err_registry (env : Env) (e : String) (s : MState)
    {s' : MState} {err : BError} (hk : e ∉ keys s.browserInstances)
    (h : connectToBrowser env e s = (s', Except.error err)) :
    s'.browserInstances = s.browserInstances ∧
    s'.connectSuccesses = s.connectSuccesses := by
  unfold connectToBrowser at h
  dsimp only at h
  rcases hc : chromiumConnect env { s with connectLog := s.connectLog ++ [e] } with ⟨s1, r⟩
  obtain ⟨c, b2, h1⟩ := by
    have := chromiumConnect_frame env { s with connectLog := s.connectLog ++ [e] }
    rw [hc] at this
    exact this
  dsimp only at h1
  have hbi1 : s1.browserInstances = s.browserInstances := by rw [h1]
  have hcs1 : s1.connectSuccesses = s.connectSuccesses := by rw [h1]
  rw [hc] at h
  cases r with
  | ok bId =>
    dsimp only at h
    rcases h2 : warmupLoop env bId PAGE_POOL_SIZE { s1 with browserInstances := mapSet s1.browserInstances (freshInstance bId e s1.clock) } [] with ⟨s3, r3⟩
    obtain ⟨c2, pgs, np, h3⟩ := by
      have := warmupLoop_frame env bId PAGE_POOL_SIZE { s1 with browserInstances := mapSet s1.browserInstances (freshInstance bId e s1.clock) } []
      rw [h2] at this
      exact this
    dsimp only at h3
    have hbi3 : s3.browserInstances = mapSet s1.browserInstances (freshInstance bId e s1.clock) := by rw [h3]
    have hcs3 : s3.connectSuccesses = s1.connectSuccesses := by rw [h3]
    rw [h2] at h
    cases r3 with
    | ok pool => cases h
    | error err3 =>
      dsimp only [Prod.mk.injEq] at h
      rcases h with ⟨h4, h5⟩
      have hset1 : mapSet s1.browserInstances (freshInstance bId e s1.clock)
          = s1.browserInstances ++ [freshInstance bId e s1.clock] :=
        mapSet_not_mem (by rw [hbi1]; exact hk)
      have hget : mapGet s3.browserInstances e
          = some (freshInstance bId e s1.clock) := by
        rw [hbi3, hset1, hbi1]
        exact mapGet_append_self hk
      unfold connectCleanup
      rw [hget]
      dsimp only
      constructor
      · rw [hbi3, hset1, hbi1]
        exact mapDelete_append_self hk
      · rw [hcs3, hcs1]
  | error errc =>
    dsimp only [Prod.mk.injEq] at h
    rcases h with ⟨h4, h5⟩
    have hget : mapGet s1.browserInstances e = none :=
      mapGet_not_mem (by rw [hbi1]; exact hk)
    unfold connectCleanup
    rw [hget]
    exact ⟨hbi1, hcs1⟩

theorem connectAll_spec (env : Env) :
    ∀ (es : List String) (s : MState), es.Nodup →
      (∀ e ∈ es, e ∉ keys s.browserInstances) →
      ∃ k, (connectAll env es s).browserInstances.length
              = s.browserInstances.length + k ∧
           (connectAll env es s).connectSuccesses = s.connectSuccesses + k := by
  intro es
  induction es with
  | nil =>
    intro s _ _
    exact ⟨0, by simp [connectAll], by simp [connectAll]⟩
  | cons e rest ih =>
    intro s hnd hdisj
    have hke : e ∉ keys s.browserInstances := hdisj e (List.mem_cons_self _ _)
    have hndr : rest.Nodup := (List.nodup_cons.mp hnd).2
    have hner : e ∉ rest := (List.nodup_cons.mp hnd).1
    unfold connectAll
    rcases h : connectToBrowser env e s with ⟨s1, r⟩
    cases r with
    | ok b =>
      obtain ⟨⟨inst, hie, hbi⟩, hsucc⟩ := connectToBrowser_ok_registry env e s hke h
      have hdisj1 : ∀ e' ∈ rest, e' ∉ keys s1.browserInstances := by
        intro e' he' hmem
        rw [hbi] at hmem
        simp only [keys, List.map_append, List.mem_append, List.map_cons,
          List.map_nil, List.mem_cons, List.not_mem_nil, or_false] at hmem
        rcases hmem with hmem | hmem
        · exact hdisj e' (List.mem_cons_of_mem _ he') hmem
        · rw [hmem, hie] at he'
          exact hner he'
      rcases ih s1 hndr hdisj1 with ⟨k, hlen, hsc⟩
      refine ⟨k + 1, ?_, ?_⟩
      · rw [hlen, hbi]
        simp only [List.length_append, List.length_cons, List.length_nil]
        omega
      · rw [hsc, hsucc]
        omega
    | error err =>
      obtain ⟨hbi, hsucc⟩ := connectToBrowser_err_registry env e s hke h
      have hdisj1 : ∀ e' ∈ rest, e' ∉ keys s1.browserInstances := by
        intro e' he'
        rw [hbi]
        exact hdisj e' (List.mem_cons_of_mem _ he')
      rcases ih s1 hndr hdisj1 with ⟨k, hlen, hsc⟩
      exact ⟨k, by rw [hlen, hbi], by rw [hsc, hsucc]⟩

/-- C3: `initializeConnections` fails with the no-endpoints error, before
attempting any connection (state untouched), exactly when no endpoints are
configured; with configured endpoints it either succeeds leaving a nonempty
registry or fails with the all-connections-failed error leaving an empty
registry (individual endpoint failures are swallowed — no other error
escapes); and, starting from an empty registry with distinct endpoints, it
succeeds if and only if at least one endpoint's `connectToBrowser`
completed. -/
theorem C3_init_success_iff (env : Env) (s : MState) :
    (env.browserEndpoints = none →
      initializeConnections env s = (s, Except.error BError.noEndpointsConfigured)) ∧
    (env.browserEndpoints ≠ none →
      (∀ s', initializeConnections env s = (s', Except.ok ()) →
        s'.browserInstances ≠ []) ∧
      (∀ s' err, initializeConnections env s = (s', Except.error err) →
        err = BError.allConnectionsFailed ∧ s'.browserInstances = [])) ∧
    (s.browserInstances = [] → (getEndpoints env.browserEndpoints).Nodup →
      ((initializeConnections env s).2 = Except.ok () ↔
        s.connectSuccesses < (initializeConnections env s).1.connectSuccesses)) := by
  refine ⟨?_, ?_, ?_⟩
  · intro h
    unfold initializeConnections
    rw [h]
    rfl
  · intro hne
    cases henv : env.browserEndpoints with
    | none => exact absurd henv hne
    | some str =>
      have hnn : getEndpoints (some str) ≠ [] := fun hh => by
        cases (getEndpoints_eq_nil (some str)).mp hh
      have hlen : ((getEndpoints (some str)).length == 0) = false := by
        cases he : getEndpoints (some str) with
        | nil => exact absurd he hnn
        | cons a as => rfl
      constructor
      · intro s' hh
        unfold initializeConnections at hh
        rw [henv] at hh
        dsimp only at hh
        rw [hlen] at hh
        simp only [Bool.false_eq_true, if_false] at hh
        split at hh
        · cases hh
        · rename_i hlen2
          simp only [Prod.mk.injEq] at hh
          rw [← hh.1]
          intro hcontra
          exact hlen2 (by rw [hcontra]; rfl)
      · intro s' err hh
        unfold initializeConnections at hh
        rw [henv] at hh
        dsimp only at hh
        rw [hlen] at hh
        simp only [Bool.false_eq_true, if_false] at hh
        split at hh
        · rename_i hlen2
          simp only [Prod.mk.injEq] at hh
          refine ⟨by cases hh.2; rfl, ?_⟩
          rw [← hh.1]
          have : (connectAll env (getEndpoints (some str)) s).browserInstances.length = 0 := by
            simpa using hlen2
          exact List.length_eq_zero.mp this
        · cases hh
  · intro hempty hnd
    cases henv : env.browserEndpoints with
    | none =>
      unfold initializeConnections
      rw [henv]
      simp [getEndpoints]
    | some str =>
      have hnn : getEndpoints (some str) ≠ [] := fun hh => by
        cases (getEndpoints_eq_nil (some str)).mp hh
      have hlen : ((getEndpoints (some str)).length == 0) = false := by
        cases he : getEndpoints (some str) with
        | nil => exact absurd he hnn
        | cons a as => rfl
      rw [henv] at hnd
      have hdisj : ∀ e ∈ getEndpoints (some str), e ∉ keys s.browserInstances := by
        intro e _
        rw [hempty]
        simp [keys]
      rcases connectAll_spec env (getEndpoints (some str)) s hnd hdisj with ⟨k, hl, hsc⟩
      unfold initializeConnections
      rw [henv]
      dsimp only
      rw [hlen]
      simp only [Bool.false_eq_true, if_false]
      rw [hempty] at hl
      simp only [List.length_nil, Nat.zero_add] at hl
      split
      · rename_i hz
        have hk0 : k = 0 := by
          have : (connectAll env (getEndpoints (some str)) s).browserInstances.length = 0 := by
            simpa using hz
          omega
        constructor
        · intro hcontra
          cases hcontra
        · intro hcontra
          rw [hsc, hk0] at hcontra
          omega
      · rename_i hz
        have hkpos : 0 < k := by
          rcases Nat.eq_zero_or_pos k with h0 | hp
          · exfalso
            apply hz
            rw [h0] at hl
            simp [hl]
          · exact hp
        constructor
        · intro _
          rw [hsc]
          omega
        · intro _
          rfl

/-- Witness for C3: against the all-succeeding oracle from the empty state,
initialization succeeds and the success counter shows one completed
connection. -/
theorem C3_init_success_iff_witness :
    0 < (initializeConnections envAllOk mInit).1.connectSuccesses := by
  have h := (C3_init_success_iff envAllOk mInit).2.2 rfl (by decide)
  exact h.mp (by decide)

/-- A healthy instance whose pool is exhausted (empty). -/
def instE : BrowserInstance :=
  { browserId := 0, pagePool := [], endpoint := "a", healthy := true,
    lastHealthCheck := 0, markedForShutdown := false }

/-- State with a single healthy but exhausted Connection. -/
def mC2 : MState := { mInit with browserInstances := [instE] }

/-- C2 (amended): `getAvailablePage` triggers `attemptRecovery` only on the
zero-healthy-Connections path — there `recoveryCalls` is bumped, no page is
returned, and any thrown error is exactly the error of the re-run
`initializeConnections` (so the call *can* throw rather than return null);
when at least one healthy Connection exists the call never throws and never
triggers recovery, even if every candidate fails to yield a page (it then
returns null with `recoveryCalls` unchanged). -/
theorem C2_exhaustion_and_recovery (env : Env) (s : MState) :
    (s.browserInstances.filter (fun i => i.healthy) = [] →
      (getAvailablePage env s).1.recoveryCalls = s.recoveryCalls + 1 ∧
      (∀ pid, (getAvailablePage env s).2 ≠ Except.ok (some pid)) ∧
      (∀ err, (getAvailablePage env s).2 = Except.error err →
        (initializeConnections env { s with recoveryCalls := s.recoveryCalls + 1 }).2
          = Except.error err)) ∧
    (s.browserInstances.filter (fun i => i.healthy) ≠ [] →
      (getAvailablePage env s).1.recoveryCalls = s.recoveryCalls ∧
      ∃ o, (getAvailablePage env s).2 = Except.ok o) := by
  constructor
  · intro hA
    unfold getAvailablePage
    dsimp only
    rw [hA]
    dsimp only [sortByPoolDesc, List.foldr_nil]
    rw [if_pos (by decide)]
    rcases hr : attemptRecoveryGlobal env s with ⟨s1, r⟩
    obtain ⟨m, c, pgs, np, nb, cs, cl, h1⟩ := by
      have := attemptRecoveryGlobal_frame env s
      rw [hr] at this
      exact this
    dsimp only at h1
    subst h1
    have hrr : (attemptRecoveryGlobal env s).2 = r := by rw [hr]
    cases r with
    | ok u =>
      refine ⟨rfl, ?_, ?_⟩
      · intro pid hcontra
        simp at hcontra
      · intro err hcontra
        simp at hcontra
    | error e =>
      refine ⟨rfl, ?_, ?_⟩
      · intro pid hcontra
        simp at hcontra
      · intro err hcontra
        simp only [Except.error.injEq] at hcontra
        rw [← hcontra]
        have : (attemptRecoveryGlobal env s).2
            = (initializeConnections env { s with recoveryCalls := s.recoveryCalls + 1 }).2 := rfl
        rw [← this, hrr]
  · intro hB
    unfold getAvailablePage
    dsimp only
    have hlen : ((sortByPoolDesc (s.browserInstances.filter (fun i => i.healthy))).length == 0)
        = false := by
      rw [length_sortByPoolDesc]
      cases hf : s.browserInstances.filter (fun i => i.healthy) with
      | nil => exact absurd hf hB
      | cons a as => rfl
    rw [hlen]
    simp only [Bool.false_eq_true, if_false]
    rcases hg : getPageLoop env (sortByPoolDesc (s.browserInstances.filter (fun i => i.healthy))) s with ⟨s1, o⟩
    obtain ⟨m, c, pgs, np, h1⟩ := by
      have := getPageLoop_frame env (sortByPoolDesc (s.browserInstances.filter (fun i => i.healthy))) s
      rw [hg] at this
      exact this
    dsimp only at h1
    subst h1
    cases o with
    | some pid => exact ⟨rfl, some pid, rfl⟩
    | none => exact ⟨rfl, none, rfl⟩

/-- C2 counterexample: a single healthy but exhausted Connection against an
all-failing oracle — `getAvailablePage` returns null yet triggers no
recovery (`recoveryCalls` stays 0 and no connection attempt is logged),
refuting the claim that exhaustion of all healthy Connections triggers an
out-of-band recovery attempt. -/
theorem C2_counterexample :
    (mC2.browserInstances.filter (fun i => i.healthy)).length = 1 ∧
    (getAvailablePage envAllFail mC2).2 = Except.ok none ∧
    (getAvailablePage envAllFail mC2).1.recoveryCalls = 0 ∧
    (getAvailablePage envAllFail mC2).1.connectLog = [] := by
  refine ⟨rfl, ?_, ?_, ?_⟩ <;> decide

/-- Witness for C2 (amended), at the same concrete state: healthy Connections
exist, so no recovery is triggered and the result is a normal null. -/
theorem C2_exhaustion_and_recovery_witness :
    (getAvailablePage envAllFail mC2).1.recoveryCalls = mC2.recoveryCalls ∧
    ∃ o, (getAvailablePage envAllFail mC2).2 = Except.ok o :=
  (C2_exhaustion_and_recovery envAllFail mC2).2 (by decide)

/-- C4: on every path of `returnPage` that does not re-pool a reset page —
owning Connection missing, owning pool full, or an exception inside the
reset path — the returned page ends up closed and the registry (hence every
pool) is untouched; `returnPage` is total (never throws) by its type. -/
theorem C4_returnPage_closes (env : Env) (pid : Nat) (s : MState) :
    (findInstanceByPage s pid = none →
      returnPage env pid s = pageClose s pid ∧
      isClosedB (returnPage env pid s) pid = true ∧
      (returnPage env pid s).browserInstances = s.browserInstances) ∧
    (∀ inst, findInstanceByPage s pid = some inst →
      ¬ inst.pagePool.length < PAGE_POOL_SIZE →
      isClosedB (returnPage env pid s) pid = true ∧
      (returnPage env pid s).browserInstances = s.browserInstances) ∧
    (∀ inst, findInstanceByPage s pid = some inst →
      inst.pagePool.length < PAGE_POOL_SIZE →
      ∀ s1 err, resetPage env pid s = (s1, Except.error err) →
      isClosedB (returnPage env pid s) pid = true ∧
      (returnPage env pid s).browserInstances = s.browserInstances) := by
  refine ⟨?_, ?_, ?_⟩
  · intro hf
    have he : returnPage env pid s = pageClose s pid := by
      unfold returnPage
      rw [hf]
    refine ⟨he, ?_, ?_⟩
    · rw [he]
      exact isClosedB_pageClose_self s pid
    · rw [he]
      rfl
  · intro inst hf hfull
    have he : returnPage env pid s = pageClose s pid := by
      unfold returnPage
      rw [hf]
      dsimp only
      rw [if_neg hfull]
    refine ⟨?_, ?_⟩
    · rw [he]
      exact isClosedB_pageClose_self s pid
    · rw [he]
      rfl
  · intro inst hf hlt s1 err hres
    have he : returnPage env pid s = pageClose s1 pid := by
      unfold returnPage
      rw [hf]
      dsimp only
      rw [if_pos hlt, hres]
    obtain ⟨c, pgs, np, gl, h1⟩ := by
      have := resetPage_frame env pid s
      rw [hres] at this
      exact this
    dsimp only at h1
    refine ⟨?_, ?_⟩
    · rw [he]
      exact isClosedB_pageClose_self s1 pid
    · rw [he, h1]
      rfl

/-- Instance with a full pool of ten pages. -/
def instFull : BrowserInstance :=
  { browserId := 0, pagePool := [1, 2, 3, 4, 5, 6, 7, 8, 9, 10], endpoint := "a",
    healthy := true, lastHealthCheck := 0, markedForShutdown := false }

/-- State for the C4 witness: full pool, checked-out page 0 open. -/
def mC4 : MState :=
  { mInit with browserInstances := [instFull], pages := pagesW, nextPageId := 11 }

/-- Witness for C4: returning page 0 to its full pool closes it and leaves
the registry unchanged. -/
theorem C4_returnPage_closes_witness :
    isClosedB (returnPage envAllOk 0 mC4) 0 = true ∧
    (returnPage envAllOk 0 mC4).browserInstances = mC4.browserInstances :=
  (C4_returnPage_closes envAllOk 0 mC4).2.1 instFull (by decide) (by decide)

theorem isClosedB_of_pages_eq {s s' : MState} (pid : Nat)
    (h : s'.pages = s.pages) : isClosedB s' pid = isClosedB s pid := by
  unfold isClosedB
  rw [h]

theorem validatePage_true_open {env : Env} {pid : Nat} {s s2 : MState}
    (h : validatePage env pid s = (s2, true)) : isClosedB s2 pid = false := by
  unfold validatePage at h
  split at h
  · simp at h
  · rename_i hcl
    rcases hp : pageEvaluate env pid s with ⟨s3, r⟩
    rw [hp] at h
    have h3 : s3 = { s with clock := s.clock + 1 } := by
      have := pageEvaluate_frame env pid s
      rw [hp] at this
      exact this
    cases r with
    | ok u =>
      simp only [Prod.mk.injEq] at h
      rw [← h.1, h3]
      rw [isClosedB_of_pages_eq pid rfl]
      have : isClosedB { s with clock := s.clock + 1 } pid = isClosedB s pid := by
        unfold isClosedB
        rfl
      rw [this]
      exact eq_false_of_ne_true hcl
    | error e => simp at h

theorem createAndSecurePage_ok_spec {env : Env} {b : Nat} {s s' : MState}
    {pid : Nat} (h : createAndSecurePage env b s = (s', Except.ok pid)) :
    pid = s.nextPageId ∧
    pageGet s'.pages pid = some { closed := false, browserId := b, secured := true, defaultTimeout := DEFAULT_PAGE_TIMEOUT } ∧
    s'.nextPageId = s.nextPageId + 1 := by
  unfold createAndSecurePage at h
  rcases hc : createBasePage env b s with ⟨s1, r⟩
  rw [hc] at h
  cases r with
  | error e => cases h
  | ok p =>
    dsimp only at h
    simp only [Prod.mk.injEq, Except.ok.injEq] at h
    rcases h with ⟨h1, h2⟩
    unfold createBasePage at hc
    dsimp only [tick] at hc
    split at hc
    · simp only [Prod.mk.injEq, Except.ok.injEq] at hc
      rcases hc with ⟨hc1, hc2⟩
      refine ⟨by rw [← h2, ← hc2], ?_, ?_⟩
      · rw [← h1, ← h2]
        unfold setupCoreSecurityControls
        dsimp only
        rw [← hc1]
        dsimp only
        rw [← hc2]
        rw [pageGet_updatePage_self, pageGet_pageSet_self]
        rfl
      · rw [← h1]
        unfold setupCoreSecurityControls
        dsimp only
        rw [← hc1]
    · cases hc

theorem tryCreatePage_some_open {env : Env} {inst : BrowserInstance}
    {s s' : MState} {pid : Nat} (h : tryCreatePage env inst s = (s', some pid)) :
    isClosedB s' pid = false := by
  unfold tryCreatePage at h
  rcases hc : createAndSecurePage env inst.browserId s with ⟨s1, r⟩
  rw [hc] at h
  cases r with
  | ok p =>
    simp only [Prod.mk.injEq, Option.some.injEq] at h
    rcases h with ⟨h1, h2⟩
    obtain ⟨hp, hq, _⟩ := createAndSecurePage_ok_spec hc
    unfold isClosedB
    rw [← h1, ← h2, hq]
  | error e => simp at h

theorem getPageLoop_open (env : Env) :
    ∀ (insts : List BrowserInstance) (s s' : MState) (pid : Nat),
      getPageLoop env insts s = (s', some pid) → isClosedB s' pid = false := by
  intro insts
  induction insts with
  | nil =>
    intro s s' pid h
    simp [getPageLoop] at h
  | cons inst rest ih =>
    intro s s' pid h
    unfold getPageLoop at h
    dsimp only at h
    split at h
    · rename_i p poolRest heq
      rcases hv : validatePage env p { s with browserInstances := mapSet s.browserInstances { inst with pagePool := poolRest } } with ⟨s2, bres⟩
      rw [hv] at h
      cases bres with
      | true =>
        simp only [Prod.mk.injEq, Option.some.injEq] at h
        rcases h with ⟨h1, h2⟩
        rw [← h1, ← h2]
        exact validatePage_true_open hv
      | false =>
        dsimp only at h
        rcases ht : tryCreatePage env { inst with pagePool := poolRest } (pageClose s2 p) with ⟨s4, o⟩
        rw [ht] at h
        cases o with
        | some q =>
          simp only [Prod.mk.injEq, Option.some.injEq] at h
          rcases h with ⟨h1, h2⟩
          rw [← h1, ← h2]
          exact tryCreatePage_some_open ht
        | none => exact ih _ _ _ h
    · rcases ht : tryCreatePage env inst s with ⟨s1, o⟩
      rw [ht] at h
      cases o with
      | some q =>
        simp only [Prod.mk.injEq, Option.some.injEq] at h
        rcases h with ⟨h1, h2⟩
        rw [← h1, ← h2]
        exact tryCreatePage_some_open ht
      | none => exact ih _ _ _ h

/-- C7: whenever `getAvailablePage` returns a page, that page's `isClosed()`
is false in the resulting state — a pooled page is handed out only after
validation succeeds, and otherwise the page handed out is freshly created
open. -/
theorem C7_returned_page_open (env : Env) (s s' : MState) (pid : Nat)
    (h : getAvailablePage env s = (s', Except.ok (some pid))) :
    isClosedB s' pid = false := by
  unfold getAvailablePage at h
  dsimp only at h
  split at h
  · rcases hr : attemptRecoveryGlobal env s with ⟨s1, r⟩
    rw [hr] at h
    cases r <;> simp at h
  · rcases hg : getPageLoop env (sortByPoolDesc (s.browserInstances.filter (fun i => i.healthy))) s with ⟨s1, o⟩
    rw [hg] at h
    cases o with
    | some p =>
      simp only [Prod.mk.injEq, Except.ok.injEq, Option.some.injEq] at h
      rcases h with ⟨h1, h2⟩
      rw [← h1, ← h2]
      exact getPageLoop_open env _ _ _ _ hg
    | none => simp at h

/-- Witness for C7: the concrete checkout of pooled page 0 yields an open
page. -/
theorem C7_returned_page_open_witness :
    isClosedB (getAvailablePage envAllOk mW).1 0 = false :=
  C7_returned_page_open envAllOk mW (getAvailablePage envAllOk mW).1 0 (by decide)

theorem createAndSecurePage_ok_of (env : Env) (b : Nat) (s : MState)
    (hok : env.newPageOk s.clock = true) :
    (createAndSecurePage env b s).2 = Except.ok s.nextPageId := by
  unfold createAndSecurePage createBasePage
  rw [hok]
  rfl

theorem createAndSecurePage_pages_other {env : Env} {b : Nat} {s s' : MState}
    {q : Nat} (h : createAndSecurePage env b s = (s', Except.ok q)) (p : Nat)
    (hne : s.nextPageId ≠ p) :
    pageGet s'.pages p = pageGet s.pages p := by
  unfold createAndSecurePage at h
  rcases hc : createBasePage env b s with ⟨s1, r⟩
  rw [hc] at h
  cases r with
  | error e => cases h
  | ok q2 =>
    dsimp only at h
    simp only [Prod.mk.injEq, Except.ok.injEq] at h
    rcases h with ⟨h1, h2⟩
    unfold createBasePage at hc
    dsimp only [tick] at hc
    split at hc
    · simp only [Prod.mk.injEq, Except.ok.injEq] at hc
      rcases hc with ⟨hc1, hc2⟩
      rw [← h1]
      unfold setupCoreSecurityControls
      dsimp only
      rw [← hc1]
      dsimp only
      rw [← hc2]
      rw [pageGet_updatePage_ne _ _ hne, pageGet_pageSet_ne _ _ hne]
    · cases hc

theorem resetPage_fail_create_spec (env : Env) (pid : Nat) (s : MState)
    (inst : BrowserInstance) (hf : findInstanceByPage s pid = some inst)
    (hgoto : (env.gotoOk s.clock && !(isClosedB s pid)) = false)
    (hnew : env.newPageOk (s.clock + 1) = true) :
    (resetPage env pid s).2 = Except.ok s.nextPageId ∧
    (s.nextPageId ≠ pid → isClosedB (resetPage env pid s).1 pid = true) ∧
    pageGet (resetPage env pid s).1.pages s.nextPageId
      = some { closed := false, browserId := inst.browserId, secured := true, defaultTimeout := DEFAULT_PAGE_TIMEOUT } := by
  unfold resetPage
  rw [hf]
  dsimp only
  have hg : pageGoto env pid 500 s
      = ({ s with gotoLog := s.gotoLog ++ [(pid, 500)], clock := s.clock + 1 },
          Except.error BError.gotoFailed) := by
    unfold pageGoto
    rw [hgoto]
    rfl
  rw [hg]
  dsimp only
  rcases hc : createAndSecurePage env inst.browserId (pageClose { s with gotoLog := s.gotoLog ++ [(pid, 500)], clock := s.clock + 1 } pid) with ⟨s3, r3⟩
  have hok : r3 = Except.ok s.nextPageId := by
    have := createAndSecurePage_ok_of env inst.browserId
      (pageClose { s with gotoLog := s.gotoLog ++ [(pid, 500)], clock := s.clock + 1 } pid)
      (by exact hnew)
    rw [hc] at this
    exact this
  subst hok
  dsimp only
  refine ⟨rfl, ?_, ?_⟩
  · intro hne
    have hother := createAndSecurePage_pages_other hc pid hne
    unfold isClosedB
    rw [hother]
    have := isClosedB_pageClose_self { s with gotoLog := s.gotoLog ++ [(pid, 500)], clock := s.clock + 1 } pid
    unfold isClosedB at this
    exact this
  · obtain ⟨hp, hq, _⟩ := createAndSecurePage_ok_spec hc
    exact hq

/-- State for the C8 counterexample: page 0 exists but belongs to no
registered instance. -/
def mC8 : MState := { mInit with pages := pagesW, nextPageId := 1 }

/-- C8 counterexample: `resetPage` on a page whose owning instance cannot be
found throws the instance-not-found error, which is not a
replacement-creation failure — so "fails only if the replacement creation
itself fails" is false as stated. -/
theorem C8_counterexample :
    (resetPage envAllOk 0 mC8).2 = Except.error BError.instanceNotFound ∧
    BError.instanceNotFound ≠ BError.newPageFailed := by
  refine ⟨?_, ?_⟩ <;> decide

/-- C8 (amended): `resetPage` throws instance-not-found when the page
belongs to no registered instance; otherwise it attempts the blank-page
navigation with the 500 ms timeout (logged exactly once); on success it
returns the same page, and on failure it closes the page and creates a
secured replacement from the same instance, throwing exactly when the
replacement creation fails. -/
theorem C8_resetPage_spec (env : Env) (pid : Nat) (s : MState) :
    (findInstanceByPage s pid = none →
      resetPage env pid s = (s, Except.error BError.instanceNotFound)) ∧
    (∀ inst, findInstanceByPage s pid = some inst →
      (resetPage env pid s).1.gotoLog = s.gotoLog ++ [(pid, 500)] ∧
      ((env.gotoOk s.clock && !(isClosedB s pid)) = true →
        (resetPage env pid s).2 = Except.ok pid) ∧
      ((env.gotoOk s.clock && !(isClosedB s pid)) = false →
        (env.newPageOk (s.clock + 1) = true →
          (resetPage env pid s).2 = Except.ok s.nextPageId ∧
          (s.nextPageId ≠ pid → isClosedB (resetPage env pid s).1 pid = true)) ∧
        (env.newPageOk (s.clock + 1) = false →
          (resetPage env pid s).2 = Except.error BError.newPageFailed ∧
          isClosedB (resetPage env pid s).1 pid = true))) := by
  constructor
  · intro hf
    unfold resetPage
    rw [hf]
  · intro inst hf
    refine ⟨?_, ?_, ?_⟩
    · obtain ⟨c, pgs, np, gl, h1⟩ := resetPage_frame env pid s
      rw [h1]
      unfold resetPage at h1
      rw [hf] at h1
      dsimp only at h1
      rcases hg : pageGoto env pid 500 s with ⟨s1, r⟩
      have hs1 : s1 = { s with clock := s.clock + 1, gotoLog := s.gotoLog ++ [(pid, 500)] } := by
        have := pageGoto_frame env pid 500 s
        rw [hg] at this
        exact this
      rw [hg] at h1
      cases r with
      | ok u =>
        dsimp only at h1
        rw [← h1, hs1]
      | error e =>
        dsimp only at h1
        rcases hc : createAndSecurePage env inst.browserId (pageClose s1 pid) with ⟨s3, r3⟩
        rw [hc] at h1
        obtain ⟨c2, pgs2, np2, h3⟩ := by
          have := createAndSecurePage_frame env inst.browserId (pageClose s1 pid)
          rw [hc] at this
          exact this
        dsimp only at h3
        cases r3 with
        | ok q =>
          dsimp only at h1
          rw [← h1, h3]
          dsimp only [pageClose]
          rw [hs1]
        | error e3 =>
          dsimp only at h1
          rw [← h1, h3]
          dsimp only [pageClose]
          rw [hs1]
    · intro hcond
      unfold resetPage
      rw [hf]
      dsimp only
      have hg : pageGoto env pid 500 s
          = ({ s with gotoLog := s.gotoLog ++ [(pid, 500)], clock := s.clock + 1 },
              Except.ok ()) := by
        unfold pageGoto
        rw [hcond]
        rfl
      rw [hg]
    · intro hcond
      constructor
      · intro hok
        obtain ⟨ha, hb, _⟩ := resetPage_fail_create_spec env pid s inst hf hcond hok
        exact ⟨ha, hb⟩
      · intro hfail
        unfold resetPage
        rw [hf]
        dsimp only
        have hg : pageGoto env pid 500 s
            = ({ s with gotoLog := s.gotoLog ++ [(pid, 500)], clock := s.clock + 1 },
                Except.error BError.gotoFailed) := by
          unfold pageGoto
          rw [hcond]
          rfl
        rw [hg]
        dsimp only
        have hcs : createAndSecurePage env inst.browserId (pageClose { s with gotoLog := s.gotoLog ++ [(pid, 500)], clock := s.clock + 1 } pid)
            = (tick (pageClose { s with gotoLog := s.gotoLog ++ [(pid, 500)], clock := s.clock + 1 } pid), Except.error BError.newPageFailed) := by
          unfold createAndSecurePage createBasePage
          dsimp only [pageClose]
          rw [hfail]
          rfl
        rw [hcs]
        dsimp only
        refine ⟨rfl, ?_⟩
        unfold isClosedB
        dsimp only [tick]
        have := isClosedB_pageClose_self { s with gotoLog := s.gotoLog ++ [(pid, 500)], clock := s.clock + 1 } pid
        unfold isClosedB at this
        exact this

/-- Witness for C8 (amended): with the owning instance present and the
navigation succeeding, the same page is returned and the 500 ms navigation
is logged. -/
theorem C8_resetPage_spec_witness :
    (resetPage envAllOk 0 mW).1.gotoLog = mW.gotoLog ++ [(0, 500)] ∧
    (resetPage envAllOk 0 mW).2 = Except.ok 0 := by
  have h := (C8_resetPage_spec envAllOk 0 mW).2 instW (by decide)
  exact ⟨h.1, h.2.1 (by decide)⟩

/-- Oracle for the C10 witness: navigation always fails, page creation
always succeeds. -/
def envC10 : Env :=
  { browserEndpoints := some ("r"), connectOk := fun _ => true,
    newPageOk := fun _ => true, gotoOk := fun _ => false,
    evalOk := fun _ => true, isConnected := fun _ => true }

/-- Instance for the C10 witness: room in the pool (one pooled page). -/
def rInst : BrowserInstance :=
  { browserId := 7, pagePool := [5], endpoint := "r", healthy := true,
    lastHealthCheck := 0, markedForShutdown := false }

/-- State for the C10 witness: page 5 open and owned by `rInst`. -/
def mw10 : MState :=
  { browserInstances := [rInst], pages := [(5, { closed := false, browserId := 7, secured := true, defaultTimeout := 5000 })], nextPageId := 6,
    nextBrowserId := 8, clock := 0, recoveryCalls := 0, connectLog := [],
    connectSuccesses := 0, gotoLog := [], healthChecksRun := [] }

/-- C10: when `returnPage` finds the owning instance with pool room, the
blank-page navigation fails and the replacement creation succeeds, the
surface pushed into the pool is the freshly created hardened page under a
brand-new id distinct from the returned page (which ends up closed), and
the pool grows by exactly one. -/
theorem C10_replacement_pushed (env : Env) (pid : Nat) (s : MState)
    (inst : BrowserInstance)
    (hwf : ∀ p ∈ s.pages, p.1 < s.nextPageId)
    (hf : findInstanceByPage s pid = some inst)
    (hroom : inst.pagePool.length < PAGE_POOL_SIZE)
    (hgoto : (env.gotoOk s.clock && !(isClosedB s pid)) = false)
    (hnew : env.newPageOk (s.clock + 1) = true) :
    s.nextPageId ≠ pid ∧
    mapGet (returnPage env pid s).browserInstances inst.endpoint
      = some { inst with pagePool := inst.pagePool ++ [s.nextPageId] } ∧
    (inst.pagePool ++ [s.nextPageId]).length = inst.pagePool.length + 1 ∧
    isClosedB (returnPage env pid s) pid = true ∧
    pageGet (returnPage env pid s).pages s.nextPageId
      = some { closed := false, browserId := inst.browserId, secured := true, defaultTimeout := DEFAULT_PAGE_TIMEOUT } := by
  have hne : pid < s.nextPageId := by
    unfold findInstanceByPage at hf
    cases hp : pageGet s.pages pid with
    | none => rw [hp] at hf; cases hf
    | some ps => exact hwf (pid, ps) (pageGet_mem hp)
  obtain ⟨h2, h3, h4⟩ := resetPage_fail_create_spec env pid s inst hf hgoto hnew
  have hret : returnPage env pid s
      = { (resetPage env pid s).1 with browserInstances := mapSet (resetPage env pid s).1.browserInstances { inst with pagePool := inst.pagePool ++ [s.nextPageId] } } := by
    unfold returnPage
    rw [hf]
    dsimp only
    rw [if_pos hroom]
    rcases hr : resetPage env pid s with ⟨s1, r⟩
    rw [hr] at h2
    dsimp only at h2
    subst h2
    rfl
  refine ⟨Nat.ne_of_gt hne, ?_, by simp, ?_, ?_⟩
  · rw [hret]
    dsimp only
    exact mapGet_mapSet_self _ _
  · have h3w := h3 (Nat.ne_of_gt hne)
    rw [hret]
    unfold isClosedB at h3w ⊢
    dsimp only
    exact h3w
  · rw [hret]
    dsimp only
    exact h4

/-- Witness for C10 on a concrete state: pool `[5]` grows to `[5, 6]`, page
5 is closed, and the new page 6 is open and hardened. -/
theorem C10_replacement_pushed_witness :
    mw10.nextPageId ≠ 5 ∧
    mapGet (returnPage envC10 5 mw10).browserInstances rInst.endpoint
      = some { rInst with pagePool := rInst.pagePool ++ [mw10.nextPageId] } ∧
    isClosedB (returnPage envC10 5 mw10) 5 = true ∧
    pageGet (returnPage envC10 5 mw10).pages mw10.nextPageId
      = some { closed := false, browserId := rInst.browserId, secured := true, defaultTimeout := DEFAULT_PAGE_TIMEOUT } := by
  obtain ⟨h1, h2, _, h4, h5⟩ := C10_replacement_pushed envC10 5 mw10 rInst (by decide) (by decide) (by decide) (by decide) (by decide)
  exact ⟨h1, h2, h4, h5⟩

/-- First instance of the C6 counterexample state. -/
def instA6 : BrowserInstance :=
  { browserId := 1, pagePool := [], endpoint := "a", healthy := true,
    lastHealthCheck := 0, markedForShutdown := false }

/-- Second instance of the C6 counterexample state: registered after
`instA6`, so the tick reaches it only if the first check completes. -/
def instB6 : BrowserInstance :=
  { browserId := 2, pagePool := [], endpoint := "b", healthy := true,
    lastHealthCheck := 0, markedForShutdown := false }

/-- C6 counterexample state: two registered instances. -/
def mC6 : MState :=
  { browserInstances := [instA6, instB6], pages := [], nextPageId := 0,
    nextBrowserId := 3, clock := 0, recoveryCalls := 0, connectLog := [],
    connectSuccesses := 0, gotoLog := [], healthChecksRun := [] }

/-- C6 counterexample: with every connection failing, one tick of the
monitor probes only the first registered instance — the awaited inline
recovery of its failed check blocks the iteration, so the second registered
instance is never probed within the tick. -/
theorem C6_counterexample :
    instB6 ∈ mC6.browserInstances ∧
    (healthTick envAllFail 3 mC6).1.healthChecksRun = ["a"] ∧
    ¬ ("b" ∈ (healthTick envAllFail 3 mC6).1.healthChecksRun) ∧
    (healthTick envAllFail 3 mC6).2 = false := by
  refine ⟨?_, ?_, ?_, ?_⟩ <;> decide

/-- C6 (amended): probe failures never propagate an exception out of the
monitor (`checkBrowserHealth` and the tick are total, returning a
completion flag instead of throwing), and a tick that completes has probed
every instance of the snapshot in registration order; but checks are NOT
fault-isolated from each other: a check whose awaited inline recovery does
not complete halts the iteration with the remaining instances unprobed. -/
theorem C6_health_check_isolation (env : Env) (fuel : Nat) :
    (∀ insts s, (healthTickGo env fuel insts s).2 = true →
      (healthTickGo env fuel insts s).1.healthChecksRun
        = s.healthChecksRun ++ insts.map (fun i => i.endpoint)) ∧
    (∀ inst rest s s1, checkBrowserHealth env inst fuel s = (s1, false) →
      healthTickGo env fuel (inst :: rest) s = (s1, false)) := by
  constructor
  · intro insts
    induction insts with
    | nil =>
      intro s h
      simp [healthTickGo]
    | cons inst rest ih =>
      intro s h
      unfold healthTickGo at h ⊢
      rcases hc : checkBrowserHealth env inst fuel s with ⟨s1, b⟩
      rw [hc] at h
      cases b with
      | false =>
        dsimp only at h
        cases h
      | true =>
        dsimp only at h ⊢
        obtain ⟨m, c, pgs, np, nb, cs, cl, rc, gl, hfr⟩ := by
          have := checkBrowserHealth_frame env inst fuel s
          rw [hc] at this
          exact this
        dsimp only at hfr
        rw [ih s1 h]
        subst hfr
        simp
  · intro inst rest s s1 hc
    unfold healthTickGo
    rw [hc]

/-- Witness for C6 (amended): a completing tick over one healthy instance
probes exactly that instance's endpoint. -/
theorem C6_health_check_isolation_witness :
    (healthTickGo envAllOk 1 mW.browserInstances mW).1.healthChecksRun
      = mW.healthChecksRun ++ (mW.browserInstances.map (fun i => i.endpoint)) := by
  exact (C6_health_check_isolation envAllOk 1).1 mW.browserInstances mW (by decide)
